import Mathlib

/-!
# tmail `core/deliverd_delivery.go` : the delivery job state machine

A shallow embedding of `delivery.processMsg`, of its terminal handlers
(`dieOk`, `dieTemp`, `diePerm`, `discard`, `bounce`, `requeue`), of the SMTP
reply classifier (`parseSmtpResponse`, `handleSmtpError`) and of the route
resolver (`getSmtpClient`).

* A `Delivery` value is the Go `delivery` struct together with the trace of
  the calls it has issued so far to its collaborators (broker, persisted
  record store, blob store, bounce enqueue), oldest call first.
* An `Env` value fixes the answer of every collaborator and of the
  configuration for one processing attempt.
* Times are nanosecond counts (`Int`); a `time.Duration` is an `int64`
  nanosecond count, so arithmetic carried out in that width wraps and
  `Time.Sub` saturates, as in Go.
* Calls to `scope.Log` are not part of the model.
-/

namespace Tmail

/-! ## Time -/

/-- Go `time.Second`, in nanoseconds. -/
def Second : Int := 1000000000

/-- Go `time.Minute`, in nanoseconds. -/
def Minute : Int := 60 * Second

/-- Smallest `time.Duration` (`int64`). -/
def minDuration : Int := -9223372036854775808

/-- Largest `time.Duration` (`int64`). -/
def maxDuration : Int := 9223372036854775807

/-- Two's complement wrap of an integer to `int64`. -/
def wrapInt64 (x : Int) : Int := (x + 9223372036854775808) % 18446744073709551616 - 9223372036854775808

/-- Wrap of a natural number to `uint16`. -/
def wrapUint16 (n : Nat) : Nat := n % 65536

/-- Go `t.Sub(u)`: the difference, saturated to the range of `time.Duration`. -/
def timeSub (t u : Int) : Int :=
  if t - u < minDuration then minDuration
  else if maxDuration < t - u then maxDuration
  else t - u

/-- Go `time.Since(t)` when the clock reads `now`. -/
def timeSince (now t : Int) : Int := timeSub now t

/-! ## Data model -/

/-- Raw bytes (`[]byte`); their content is never inspected here. -/
abbrev Bytes := String

/-- The persisted queue record `QMessage`. `Status` is a `uint32`:
0 in progress, 1 discard, 2 retry, 3 bounce. -/
structure QMessage where
  Key : String
  MailFrom : String
  RcptTo : String
  Host : String
  AddedAt : Int
  LastUpdate : Int
  NextDeliveryScheduledAt : Int
  Status : Nat
  deriving DecidableEq, Repr

/-- The part of `nsq.Message` that is read: the body and the `uint16` attempt counter. -/
structure NsqMessage where
  Body : String
  Attempts : Nat
  deriving DecidableEq, Repr

/-- The `message.Envelope` handed to `QueueAddMessage`. -/
structure Envelope where
  MailFrom : String
  RcptTo : List String
  deriving DecidableEq, Repr

/-- The local type `templateData` of `bounce`. -/
structure TemplateData where
  Date : String
  Me : String
  RcptTo : String
  OriRcptTo : String
  ErrMsg : String
  BouncedMail : String
  deriving DecidableEq, Repr

/-- One call to a collaborator. -/
inductive Event where
  | updateFromDb (key : String)
  | saveInDb (q : QMessage)
  | delete (key : String)
  | storeNew
  | storeGet (key : String)
  | storeRead
  | queueAddMessage (body : Bytes) (envelope : Envelope) (hint : String)
  | deliverLocal
  | deliverRemote
  | finish
  | requeueWithoutBackoff (delay : Int)
  deriving DecidableEq, Repr

/-- The Go `delivery` struct, with the trace of collaborator calls issued so far. -/
structure Delivery where
  id : String
  nsqMsg : NsqMessage
  qMsg : QMessage
  rawData : Option Bytes
  qStore : Bool
  trace : List Event
  deriving DecidableEq, Repr

/-- Answer of `QMessage.UpdateFromDb`. -/
inductive DbResult where
  | found (q : QMessage)
  | recordNotFound
  | otherError (msg : String)
  deriving DecidableEq, Repr

/-- A call to one terminal handler, as made by a delivery strategy. -/
inductive HandlerCall where
  | dieOk
  | dieTemp (msg : String)
  | diePerm (msg : String)
  | discard
  | bounce (msg : String)
  | requeue (newStatus : List Nat)
  deriving DecidableEq, Repr

/-- The collaborators and the configuration during one processing attempt.
An `Option String` answer is a Go `error` (`none` is `nil`). -/
structure Env where
  now : Int
  queueLifetime : Int
  me : String
  format822 : Int → String
  unmarshal : String → Except String QMessage
  updateFromDb : QMessage → DbResult
  deleteErr : Option String
  storeNewErr : Option String
  storeGetErr : Option String
  storeRead : Except String Bytes
  parseFilesErr : Option String
  execute : TemplateData → Except String Bytes
  bufReadAll : Bytes → Except String Bytes
  unix2dos : Bytes → Except String Bytes
  queueAddMessage : Bytes → Envelope → String → Except String String
  isLocalDelivery : String → Except String Bool
  deliverLocal : HandlerCall
  deliverRemote : HandlerCall

/-- Record one collaborator call. -/
def Delivery.emit (d : Delivery) (ev : Event) : Delivery :=
  { d with trace := d.trace ++ [ev] }

/-! ## Terminal handlers -/

/-- The delay of `requeue`, Go `time.Duration(d.nsqMsg.Attempts*60) * time.Second`:
the product `Attempts*60` is computed in `uint16`. -/
def requeueDelay (attempts : Nat) : Int :=
  (wrapUint16 (attempts * 60) : Int) * Second

/-- Go `delivery.requeue(newStatus ...uint32)`. -/
def requeue (e : Env) (newStatus : List Nat) (d : Delivery) : Delivery :=
  let status : Nat := match newStatus with
    | [] => 2
    | s :: _ => s
  let delay : Int := requeueDelay d.nsqMsg.Attempts
  let q : QMessage := { d.qMsg with NextDeliveryScheduledAt := e.now + delay, Status := status }
  (({ d with qMsg := q }).emit (Event.saveInDb q)).emit (Event.requeueWithoutBackoff delay)

/-- Go `delivery.dieOk()`. -/
def dieOk (e : Env) (d : Delivery) : Delivery :=
  let d1 := d.emit (Event.delete d.qMsg.Key)
  match e.deleteErr with
  | some _ => d1.emit Event.finish
  | none => d1.emit Event.finish

/-- Go `delivery.discard()`. -/
def discard (e : Env) (d : Delivery) : Delivery :=
  let d1 := d.emit (Event.delete d.qMsg.Key)
  match e.deleteErr with
  | some _ => requeue e [1] d1
  | none => d1.emit Event.finish

/-- The raw mail that `bounce` quotes: `d.rawData`, or a placeholder when it is nil. -/
def bounceRawData (d : Delivery) : Bytes :=
  match d.rawData with
  | none => "Raw mail was not found in the store"
  | some t => t

/-- The value `tData` that `bounce` hands to the template. -/
def bounceTemplateData (e : Env) (errMsg : String) (d : Delivery) : TemplateData :=
  { Date := e.format822 e.now, Me := e.me, RcptTo := d.qMsg.MailFrom,
    OriRcptTo := d.qMsg.RcptTo, ErrMsg := errMsg, BouncedMail := bounceRawData d }

/-- The envelope of the bounce that `bounce` enqueues. -/
def bounceEnvelope (d : Delivery) : Envelope :=
  { MailFrom := "", RcptTo := [d.qMsg.MailFrom] }

/-- Go `delivery.bounce(errMsg string)`. -/
def bounce (e : Env) (errMsg : String) (d : Delivery) : Delivery :=
  if d.qMsg.MailFrom = "" then
    let d1 := d.emit (Event.delete d.qMsg.Key)
    match e.deleteErr with
    | some _ => requeue e [1] d1
    | none => d1.emit Event.finish
  else if d.qMsg.MailFrom = "#@[]" then
    let d1 := d.emit (Event.delete d.qMsg.Key)
    match e.deleteErr with
    | some _ => requeue e [1] d1
    | none => d1.emit Event.finish
  else
    let d1 : Delivery := { d with rawData := some (bounceRawData d) }
    let tData : TemplateData := bounceTemplateData e errMsg d
    match e.parseFilesErr with
    | some _ => requeue e [3] d1
    | none =>
      match e.execute tData with
      | Except.error _ => requeue e [3] d1
      | Except.ok buf =>
        match e.bufReadAll buf with
        | Except.error _ => requeue e [3] d1
        | Except.ok b0 =>
          match e.unix2dos b0 with
          | Except.error _ => requeue e [3] d1
          | Except.ok b =>
            let envelope : Envelope := bounceEnvelope d1
            let d2 := d1.emit (Event.queueAddMessage b envelope "")
            match e.queueAddMessage b envelope "" with
            | Except.error _ => requeue e [3] d2
            | Except.ok _ =>
              let d3 := d2.emit (Event.delete d2.qMsg.Key)
              match e.deleteErr with
              | some _ => requeue e [1] d3
              | none => d3.emit Event.finish

/-- Go `delivery.diePerm(msg string)`. -/
def diePerm (e : Env) (msg : String) (d : Delivery) : Delivery :=
  bounce e msg d

/-- Go `delivery.dieTemp(msg string)`. -/
def dieTemp (e : Env) (msg : String) (d : Delivery) : Delivery :=
  if timeSince e.now d.qMsg.AddedAt < wrapInt64 (e.queueLifetime * Minute) then
    requeue e [] d
  else
    diePerm e (msg ++ "\r\nI'm not going to try again, this message has been in the queue for too long.") d

/-- The terminal handler a delivery strategy ends with. -/
def runHandler (e : Env) (c : HandlerCall) (d : Delivery) : Delivery :=
  match c with
  | HandlerCall.dieOk => dieOk e d
  | HandlerCall.dieTemp msg => dieTemp e msg d
  | HandlerCall.diePerm msg => diePerm e msg d
  | HandlerCall.discard => discard e d
  | HandlerCall.bounce msg => bounce e msg d
  | HandlerCall.requeue ns => requeue e ns d

/-- Modelled from the spec: `deliverLocal` is not in this file; local delivery
is a strategy whose outcome calls back into one terminal handler. -/
def deliverLocal (e : Env) (d : Delivery) : Delivery :=
  runHandler e e.deliverLocal (d.emit Event.deliverLocal)

/-- Modelled from the spec: `deliverRemote` is not in this file; remote delivery
is a strategy whose outcome calls back into one terminal handler. -/
def deliverRemote (e : Env) (d : Delivery) : Delivery :=
  runHandler e e.deliverRemote (d.emit Event.deliverRemote)

/-! ## The processing attempt -/

/-- Go `delivery.processMsg()`. -/
def processMsg (e : Env) (d : Delivery) : Delivery :=
  match e.unmarshal d.nsqMsg.Body with
  | Except.error _ => d
  | Except.ok q0 =>
    let d0 : Delivery := ({ d with qMsg := q0 }).emit (Event.updateFromDb q0.Key)
    match e.updateFromDb q0 with
    | DbResult.recordNotFound => discard e d0
    | DbResult.otherError _ => requeue e [] d0
    | DbResult.found q =>
      let d1 : Delivery := { d0 with qMsg := q }
      if d1.qMsg.Status = 0 then
        if timeSince e.now d1.qMsg.LastUpdate > 3600 * Second then
          requeue e [2] d1
        else
          d1
      else if d1.qMsg.Status = 1 then
        let q1 : QMessage := { d1.qMsg with Status := 0 }
        let d2 : Delivery := ({ d1 with qMsg := q1 }).emit (Event.saveInDb q1)
        discard e d2
      else
        let flagBounce : Bool := decide (d1.qMsg.Status = 3)
        let q1 : QMessage := { d1.qMsg with Status := 0 }
        let d2 : Delivery := ({ d1 with qMsg := q1 }).emit (Event.saveInDb q1)
        let d3 := d2.emit Event.storeNew
        match e.storeNewErr with
        | some _ => requeue e [] d3
        | none =>
          let d4 : Delivery := ({ d3 with qStore := true }).emit (Event.storeGet d3.qMsg.Key)
          match e.storeGetErr with
          | some err => dieTemp e ("unable to retrieve raw mail from store. " ++ err) d4
          | none =>
            let d5 := d4.emit Event.storeRead
            match e.storeRead with
            | Except.error err => dieTemp e ("unable to read raw mail from dataReader. " ++ err) d5
            | Except.ok t =>
              let d6 : Delivery := { d5 with rawData := some t }
              if flagBounce then
                bounce e "bounced by admin" d6
              else
                match e.isLocalDelivery d6.qMsg.RcptTo with
                | Except.error err => dieTemp e ("unable to check if it's local delivery. " ++ err) d6
                | Except.ok isLocal =>
                  if isLocal then deliverLocal e d6 else deliverRemote e d6

/-! ## Observations on traces -/

/-- Number of `Finish` calls in a trace. -/
def countFinish : List Event → Nat
  | [] => 0
  | Event.finish :: t => countFinish t + 1
  | _ :: t => countFinish t

/-- Number of `RequeueWithoutBackoff` calls in a trace. -/
def countRequeue : List Event → Nat
  | [] => 0
  | Event.requeueWithoutBackoff _ :: t => countRequeue t + 1
  | _ :: t => countRequeue t

/-- The record that `requeue` persists for the job `d` with step `status`. -/
def requeuedRecord (e : Env) (d : Delivery) (status : Nat) : QMessage :=
  { d.qMsg with
    NextDeliveryScheduledAt := e.now + requeueDelay d.nsqMsg.Attempts, Status := status }

/-- The calls issued after the trace `before` in the longer trace `after`. -/
def newEvents (before after : List Event) : List Event := after.drop before.length

/-- The call that took the trace `t` to `t'` only added calls, and among the
added calls there is exactly one terminal broker operation: one `Finish` and
no requeue, or one requeue and no `Finish`. -/
def IssuesOneBrokerOp (t t' : List Event) : Prop :=
  t' = t ++ newEvents t t' ∧
    ((countFinish (newEvents t t') = 1 ∧ countRequeue (newEvents t t') = 0) ∨
     (countFinish (newEvents t t') = 0 ∧ countRequeue (newEvents t t') = 1))

/-! ## Concrete inputs -/

/-- A queued record: mail from `a@b.com` to `c@d.org`, marked for retry. -/
def sampleRecord : QMessage :=
  { Key := "7f88b728", MailFrom := "a@b.com", RcptTo := "c@d.org", Host := "d.org",
    AddedAt := 0, LastUpdate := 0, NextDeliveryScheduledAt := 0, Status := 2 }

/-- A freshly built `delivery` for a broker message on its first attempt. -/
def sampleJob : Delivery :=
  { id := "w1", nsqMsg := { Body := "payload", Attempts := 1 }, qMsg := sampleRecord,
    rawData := none, qStore := false, trace := [] }

/-- An environment in which every collaborator succeeds, the record is the
sample record, the recipient is remote and remote delivery ends with `dieOk`.
The clock reads 100 s and the queue lifetime is 10080 minutes. -/
def envOk : Env :=
  { now := 100 * Second
    queueLifetime := 10080
    me := "mx.example.org"
    format822 := fun _ => "date"
    unmarshal := fun _ => Except.ok sampleRecord
    updateFromDb := fun _ => DbResult.found sampleRecord
    deleteErr := none
    storeNewErr := none
    storeGetErr := none
    storeRead := Except.ok "raw mail"
    parseFilesErr := none
    execute := fun _ => Except.ok "rendered bounce"
    bufReadAll := fun b => Except.ok b
    unix2dos := fun b => Except.ok b
    queueAddMessage := fun _ _ _ => Except.ok "newid"
    isLocalDelivery := fun _ => Except.ok false
    deliverLocal := HandlerCall.dieOk
    deliverRemote := HandlerCall.dieOk }

/-- As `envOk`, but the broker payload does not decode. -/
def envUndecodable : Env :=
  { envOk with unmarshal := fun _ => Except.error "invalid character" }

/-- The sample job with an empty return path: it is itself a bounce. -/
def doubleBounceJob : Delivery :=
  { sampleJob with qMsg := { sampleRecord with MailFrom := "" } }

/-- As `envOk`, but the bounce enqueue fails. -/
def envEnqueueFails : Env :=
  { envOk with queueAddMessage := fun _ _ _ => Except.error "queue down" }

/-- As `envOk`, but the persisted record is not found. -/
def envRecordMissing : Env :=
  { envOk with updateFromDb := fun _ => DbResult.recordNotFound }

/-- As `envRecordMissing`, and deleting the record fails as well. -/
def envRecordMissingDeleteFails : Env :=
  { envOk with updateFromDb := fun _ => DbResult.recordNotFound, deleteErr := some "db down" }

/-- The clock reads `now` and the reloaded record is in progress (Status 0),
last updated at time 0; everything else as in `envOk`. -/
def envInProgress (now : Int) : Env :=
  { envOk with
    now := now
    updateFromDb := fun _ => DbResult.found { sampleRecord with Status := 0 } }

/-- The sample job on its 1093rd broker attempt. -/
def manyAttemptsJob : Delivery :=
  { sampleJob with nsqMsg := { Body := "payload", Attempts := 1093 } }

/-- As `envOk`, but the queue lifetime is 0 minutes: every job is too old to retry. -/
def envExpired : Env :=
  { envOk with queueLifetime := 0 }

/-- As `envOk`, but the configured queue lifetime is 2147483647 minutes. -/
def envHugeLifetime : Env :=
  { envOk with queueLifetime := 2147483647 }

/-- As `envOk`, but deleting the persisted record fails. -/
def envDeleteFails : Env :=
  { envOk with deleteErr := some "db down" }

/-- As `envOk`, but the reloaded record carries the given `Status`. -/
def envMarked (status : Nat) : Env :=
  { envOk with updateFromDb := fun _ => DbResult.found { sampleRecord with Status := status } }

/-! ## SMTP reply classifier

A reply line is read character by character; on the ASCII lines of SMTP the
characters are the bytes that the Go code indexes. -/

/-- Go `smtpResponse`. -/
structure SmtpResponse where
  Code : Int
  Msg : String
  deriving DecidableEq, Repr

/-- Value of a decimal digit; `none` for any other character. -/
def digitValue (ch : Char) : Option Nat :=
  if 48 ≤ ch.toNat ∧ ch.toNat ≤ 57 then some (ch.toNat - 48) else none

/-- The digit loop of Go `strconv.Atoi`: accumulate in base 10, fail on a non-digit. -/
def atoiDigits : List Char → Nat → Option Nat
  | [], n => some n
  | ch :: rest, n =>
    match digitValue ch with
    | none => none
    | some v => atoiDigits rest (n * 10 + v)

/-- Go `strconv.Atoi` on a string too short to overflow (it is only applied to
three characters): an optional sign `+` or `-`, then at least one digit, digits only. -/
def atoi (s : List Char) : Option Int :=
  match s with
  | [] => none
  | c :: rest =>
    if c = '-' then
      if rest.isEmpty then none else (atoiDigits rest 0).map (fun (n : Nat) => -(n : Int))
    else if c = '+' then
      if rest.isEmpty then none else (atoiDigits rest 0).map (fun (n : Nat) => (n : Int))
    else (atoiDigits (c :: rest) 0).map (fun (n : Nat) => (n : Int))

/-- Text of the error of `strconv.Atoi`; no property below depends on it. -/
def atoiErrorText (s : String) : String :=
  "strconv.ParseInt: parsing " ++ s.quote ++ ": invalid syntax"

/-- Go `parseSmtpResponse(line string) (response smtpResponse, err error)`: both
named results are returned, `err` being `none` for `nil`. -/
def parseSmtpResponse (line : String) : SmtpResponse × Option String :=
  let invalid : String := "invalid smtp response from remote server: " ++ line
  if line.length < 4 ∨ (line.data[3]? ≠ some ' ' ∧ line.data[3]? ≠ some '-') then
    ({ Code := 0, Msg := "" }, some invalid)
  else
    match atoi (line.data.take 3) with
    | none => ({ Code := 0, Msg := "" }, some (atoiErrorText (String.mk (line.data.take 3))))
    | some code => ({ Code := code, Msg := String.mk (line.data.drop 4) }, none)

/-- The code `c` written as three decimal digits. -/
def threeDigits (c : Nat) : List Char :=
  [Char.ofNat (48 + c / 100), Char.ofNat (48 + c / 10 % 10), Char.ofNat (48 + c % 10)]

/-- The terminal handler calls that Go `delivery.handleSmtpError(smtpErr, remoteIp)`
makes, in order: the call under `if err != nil` does not return, so the
classification on `smtpResponse.Code` that follows is made in every case. -/
def handleSmtpErrorCalls (smtpErr remoteIp : String) : List HandlerCall :=
  let r := parseSmtpResponse smtpErr
  let onError : List HandlerCall := match r.2 with
    | some err => [HandlerCall.dieTemp err]
    | none => []
  let classified : HandlerCall :=
    if r.1.Code > 499 then HandlerCall.diePerm ("remote " ++ remoteIp ++ " reply: " ++ r.1.Msg)
    else HandlerCall.dieTemp ("remote " ++ remoteIp ++ " reply: " ++ r.1.Msg)
  onError ++ [classified]

/-- Go `delivery.handleSmtpError(smtpErr, remoteIp string)`. -/
def handleSmtpError (e : Env) (smtpErr remoteIp : String) (d : Delivery) : Delivery :=
  (handleSmtpErrorCalls smtpErr remoteIp).foldl (fun d1 c => runHandler e c d1) d

/-! ## Route resolver -/

/-- A `net.IP`: a slice of bytes. -/
structure IP where
  bytes : List Nat
  deriving DecidableEq, Repr

/-- A `net.TCPAddr`. -/
structure TCPAddr where
  IP : Tmail.IP
  Port : Int
  deriving DecidableEq, Repr

/-- The fields of `Route` that `getSmtpClient` reads: `LocalIp.String`,
`RemoteHost` and `RemotePort.Int64`. -/
structure Route where
  LocalIp : String
  RemoteHost : String
  RemotePort : Int
  deriving DecidableEq, Repr

/-- A connected SMTP `Client`, as returned by `Dialz`. -/
structure Client where
  conn : String
  deriving DecidableEq, Repr

/-- The network collaborators of `getSmtpClient`. `lookupIP`, `perm` and `dial`
also receive the position of the route being evaluated, so that their answers
may differ from one route to the next. `isIpV4` is the helper `IsIpV4` of the
package, which is not in this file. -/
structure NetEnv where
  parseIP : String → Option IP
  ipString : IP → String
  isIpV4 : String → Bool
  lookupIP : Nat → String → Except String (List IP)
  perm : Nat → Nat → List Nat
  dial : Nat → TCPAddr → String → Except String Client

/-- One call to `Dialz`, with the route under evaluation and its position. -/
structure DialAttempt where
  routeIx : Nat
  route : Route
  localIp : IP
  remote : TCPAddr
  deriving DecidableEq, Repr

/-- The three results of `getSmtpClient`, with the dials and DNS lookups made. -/
structure SmtpClientResult where
  client : Option Client
  route : Option Route
  err : Option String
  dials : List DialAttempt
  lookups : List (Nat × String)
  deriving DecidableEq, Repr

/-- Go `strings.Count(s, sep)` for a one-character separator. -/
def stringsCount (s : String) (sep : Char) : Nat := s.data.count sep

/-- Splitting of a character list at every occurrence of `sep`. -/
def splitChars (sep : Char) : List Char → List (List Char)
  | [] => [[]]
  | c :: cs =>
    if c = sep then [] :: splitChars sep cs
    else
      match splitChars sep cs with
      | [] => [[c]]
      | p :: ps => (c :: p) :: ps

/-- Go `strings.Split(s, sep)` for a one-character separator. -/
def stringsSplit (s : String) (sep : Char) : List String :=
  (splitChars sep s.data).map String.mk

/-- The loop `for i, v := range perm { rSIps[v] = sIps[i] }` of `getSmtpClient`,
run on a fresh `rSIps` of the length of `sIps`. -/
def shuffle (perm : List Nat) (sIps : List String) : List String :=
  (perm.zip sIps).foldl (fun acc p => acc.set p.1 p.2) (List.replicate sIps.length "")

/-- Whether the local-IP field of the route contains `&`. -/
def Route.failover (route : Route) : Bool := stringsCount route.LocalIp '&' != 0

/-- Whether the local-IP field of the route contains `|`. -/
def Route.roundRobin (route : Route) : Bool := stringsCount route.LocalIp '|' != 0

/-- The address strings of the route as split, before any reordering. -/
def splitLocalIp (route : Route) : List String :=
  if !route.failover && !route.roundRobin then [route.LocalIp]
  else stringsSplit route.LocalIp (if route.failover then '&' else '|')

/-- The slice `sIps` of `getSmtpClient` when the loop over it starts: the field itself
when there is no joiner, otherwise the split strings moved by `rand.Perm`. -/
def localIpStrings (n : NetEnv) (ix : Nat) (route : Route) : List String :=
  if !route.failover && !route.roundRobin then [route.LocalIp]
  else
    let sep : Char := if route.failover then '&' else '|'
    let sIps := stringsSplit route.LocalIp sep
    shuffle (n.perm ix sIps.length) sIps

/-- The loop `IP string to net.IP`: the parsed addresses, or the first string
that `net.ParseIP` rejects. -/
def parseLocalIps (n : NetEnv) : List String → Except String (List IP)
  | [] => Except.ok []
  | ipStr :: rest =>
    match n.parseIP ipStr with
    | none => Except.error ipStr
    | some ip =>
      match parseLocalIps n rest with
      | Except.error bad => Except.error bad
      | Except.ok ips => Except.ok (ip :: ips)

/-- The DNS lookups made for the route: one when `RemoteHost` is no IP literal. -/
def remoteLookups (n : NetEnv) (ix : Nat) (route : Route) : List (Nat × String) :=
  match n.parseIP route.RemoteHost with
  | some _ => []
  | none => [(ix, route.RemoteHost)]

/-- The slice `remoteAddresses` of `getSmtpClient`, or the DNS error. -/
def remoteAddresses (n : NetEnv) (ix : Nat) (route : Route) : Except String (List TCPAddr) :=
  match n.parseIP route.RemoteHost with
  | some ip => Except.ok [{ IP := ip, Port := route.RemotePort }]
  | none =>
    match n.lookupIP ix route.RemoteHost with
    | Except.error err => Except.error err
    | Except.ok ips => Except.ok (ips.map (fun i => { IP := i, Port := route.RemotePort }))

/-- The inner loop over `remoteAddresses` for one local address: the dials
made, and the client of the first dial that succeeds. -/
def dialRemotes (n : NetEnv) (ix : Nat) (route : Route) (lIp : IP) :
    List TCPAddr → List DialAttempt × Option Client
  | [] => ([], none)
  | remoteAddr :: rest =>
    if n.isIpV4 (n.ipString lIp) != n.isIpV4 (n.ipString remoteAddr.IP) then
      dialRemotes n ix route lIp rest
    else
      match n.dial ix remoteAddr (n.ipString lIp) with
      | Except.ok c =>
        ([{ routeIx := ix, route := route, localIp := lIp, remote := remoteAddr }], some c)
      | Except.error _ =>
        ({ routeIx := ix, route := route, localIp := lIp, remote := remoteAddr } ::
            (dialRemotes n ix route lIp rest).1,
          (dialRemotes n ix route lIp rest).2)

/-- The outer loop over `localIps`. -/
def dialLocals (n : NetEnv) (ix : Nat) (route : Route) (remotes : List TCPAddr) :
    List IP → List DialAttempt × Option Client
  | [] => ([], none)
  | lIp :: rest =>
    match dialRemotes n ix route lIp remotes with
    | (ds, some c) => (ds, some c)
    | (ds, none) =>
      (ds ++ (dialLocals n ix route remotes rest).1, (dialLocals n ix route remotes rest).2)

/-- Go `getSmtpClient`, from the route at position `ix` on. -/
def getSmtpClientFrom (n : NetEnv) : Nat → List Route → SmtpClientResult
  | _, [] =>
    { client := none, route := none,
      err := some "deliverd.getSmtpClient: unable to get a client, all routes have been tested",
      dials := [], lookups := [] }
  | ix, route :: rest =>
    if route.failover && route.roundRobin then
      { client := none, route := some route,
        err := some ("mixing & and | are not allowed in localIP routes: " ++ route.LocalIp),
        dials := [], lookups := [] }
    else
      match parseLocalIps n (localIpStrings n ix route) with
      | Except.error ipStr =>
        { client := none, route := some route,
          err := some ("invalid IP " ++ ipStr ++ " found in localIp routes: " ++ route.LocalIp),
          dials := [], lookups := [] }
      | Except.ok localIps =>
        match remoteAddresses n ix route with
        | Except.error err =>
          { client := none, route := some route, err := some err,
            dials := [], lookups := remoteLookups n ix route }
        | Except.ok remotes =>
          match dialLocals n ix route remotes localIps with
          | (ds, some c) =>
            { client := some c, route := some route, err := none,
              dials := ds, lookups := remoteLookups n ix route }
          | (ds, none) =>
            { client := (getSmtpClientFrom n (ix + 1) rest).client
              route := (getSmtpClientFrom n (ix + 1) rest).route
              err := (getSmtpClientFrom n (ix + 1) rest).err
              dials := ds ++ (getSmtpClientFrom n (ix + 1) rest).dials
              lookups := remoteLookups n ix route ++ (getSmtpClientFrom n (ix + 1) rest).lookups }

/-- Go `getSmtpClient(routes *[]Route) (*Client, *Route, error)`. -/
def getSmtpClient (n : NetEnv) (routes : List Route) : SmtpClientResult :=
  getSmtpClientFrom n 0 routes

/-! ### The resolver as the spec words it -/

/-- Whether the dial of this pair succeeds. -/
def dialSucceeds (n : NetEnv) (a : DialAttempt) : Bool :=
  match n.dial a.routeIx a.remote (n.ipString a.localIp) with
  | Except.ok _ => true
  | Except.error _ => false

/-- The client that the dial of this pair yields, if it succeeds. -/
def dialClient (n : NetEnv) (a : DialAttempt) : Option Client :=
  match n.dial a.routeIx a.remote (n.ipString a.localIp) with
  | Except.ok c => some c
  | Except.error _ => none

/-- Whether the local and the remote address are of the same family. -/
def sameFamily (n : NetEnv) (lIp : IP) (remoteAddr : TCPAddr) : Bool :=
  n.isIpV4 (n.ipString lIp) == n.isIpV4 (n.ipString remoteAddr.IP)

/-- The same-family pairs of one route: local addresses outer, remote addresses inner. -/
def localCandidates (n : NetEnv) (ix : Nat) (route : Route) (remotes : List TCPAddr) :
    List IP → List DialAttempt
  | [] => []
  | lIp :: rest =>
    (remotes.filter (sameFamily n lIp)).map
        (fun ra => { routeIx := ix, route := route, localIp := lIp, remote := ra }) ++
      localCandidates n ix route remotes rest

/-- The same-family pairs of a route; none when the route is malformed or does not resolve. -/
def routeCandidates (n : NetEnv) (ix : Nat) (route : Route) : List DialAttempt :=
  match parseLocalIps n (localIpStrings n ix route), remoteAddresses n ix route with
  | Except.ok localIps, Except.ok remotes => localCandidates n ix route remotes localIps
  | _, _ => []

/-- The same-family pairs of all routes, from position `ix` on, in route order. -/
def candidatesFrom (n : NetEnv) : Nat → List Route → List DialAttempt
  | _, [] => []
  | ix, route :: rest => routeCandidates n ix route ++ candidatesFrom n (ix + 1) rest

/-- The first pair of the enumeration whose dial succeeds. -/
def firstSuccess (n : NetEnv) (cs : List DialAttempt) : Option DialAttempt :=
  cs.find? (dialSucceeds n)

/-- The pairs dialled when dialling in order up to the first success: the
failing pairs before it, then the successful pair itself. -/
def attempted (n : NetEnv) (cs : List DialAttempt) : List DialAttempt :=
  cs.takeWhile (fun a => !dialSucceeds n a) ++ (firstSuccess n cs).toList

/-- A route that is evaluated without error: no mix of `&` and `|`, every
local address string parses, and the remote host is an IP literal or resolves. -/
def WellFormed (n : NetEnv) (ix : Nat) (route : Route) : Prop :=
  (route.failover && route.roundRobin) = false ∧
  (∃ localIps, parseLocalIps n (localIpStrings n ix route) = Except.ok localIps) ∧
  (∃ remotes, remoteAddresses n ix route = Except.ok remotes)

/-! ### Concrete network -/

/-- A small address book: three IPv4 literals and one IPv6 literal. -/
def sampleParseIP (s : String) : Option IP :=
  if s = "1.2.3.4" then some { bytes := [1, 2, 3, 4] }
  else if s = "5.6.7.8" then some { bytes := [5, 6, 7, 8] }
  else if s = "9.9.9.9" then some { bytes := [9, 9, 9, 9] }
  else if s = "2001:db8::1" then some { bytes := [32, 1, 13, 184, 0, 0, 0, 0, 0, 0, 0, 0, 0, 0, 0, 1] }
  else none

/-- Inverse of `sampleParseIP` on the address book. -/
def sampleIpString (ip : IP) : String :=
  if ip.bytes = [1, 2, 3, 4] then "1.2.3.4"
  else if ip.bytes = [5, 6, 7, 8] then "5.6.7.8"
  else if ip.bytes = [9, 9, 9, 9] then "9.9.9.9"
  else "2001:db8::1"

/-- A network in which `mx.example.org` resolves to an IPv6 and an IPv4
address, every dial succeeds, and `rand.Perm` returns the identity. -/
def netOk : NetEnv :=
  { parseIP := sampleParseIP
    ipString := sampleIpString
    isIpV4 := fun s => !s.data.contains ':'
    lookupIP := fun _ host =>
      if host = "mx.example.org" then
        Except.ok [{ bytes := [32, 1, 13, 184, 0, 0, 0, 0, 0, 0, 0, 0, 0, 0, 0, 1] },
                   { bytes := [9, 9, 9, 9] }]
      else Except.error "no such host"
    perm := fun _ k => List.range k
    dial := fun _ ra l => Except.ok { conn := l ++ "->" ++ sampleIpString ra.IP } }

/-- As `netOk`, but `rand.Perm(2)` returns `[1, 0]`. -/
def netSwap : NetEnv :=
  { netOk with perm := fun _ k => if k = 2 then [1, 0] else List.range k }

/-- As `netOk`, but every dial sourced from `1.2.3.4` fails. -/
def netFirstLocalDown : NetEnv :=
  { netOk with
    dial := fun _ ra l =>
      if l = "1.2.3.4" then Except.error "connection refused"
      else Except.ok { conn := l ++ "->" ++ sampleIpString ra.IP } }

/-- The spec's failover route: two local addresses joined by `&`. -/
def failoverRoute : Route :=
  { LocalIp := "1.2.3.4&5.6.7.8", RemoteHost := "mx.example.org", RemotePort := 25 }

/-- A route whose local-IP field mixes `&` and `|`. -/
def mixedRoute : Route :=
  { LocalIp := "1.2.3.4&5.6.7.8|9.9.9.9", RemoteHost := "mx.example.org", RemotePort := 25 }

/-- A route with a single local address and an IP literal as remote host. -/
def literalRoute : Route :=
  { LocalIp := "1.2.3.4", RemoteHost := "9.9.9.9", RemotePort := 25 }

/-! ## Lemmas on traces -/

@[simp] theorem countFinish_append (s t : List Event) :
    countFinish (s ++ t) = countFinish s + countFinish t := by
  induction s with
  | nil => simp [countFinish]
  | cons a s ih => cases a <;> simp [countFinish, ih]; omega

@[simp] theorem countRequeue_append (s t : List Event) :
    countRequeue (s ++ t) = countRequeue s + countRequeue t := by
  induction s with
  | nil => simp [countRequeue]
  | cons a s ih => cases a <;> simp [countRequeue, ih]; omega


@[simp] theorem newEvents_append (t l : List Event) : newEvents t (t ++ l) = l := by
  simp [newEvents]

@[simp] theorem newEvents_self (t : List Event) : newEvents t t = [] := by
  simp [newEvents]

theorem requeue_trace (e : Env) (ns : List Nat) (d : Delivery) :
    (requeue e ns d).trace = d.trace ++
      [Event.saveInDb (requeue e ns d).qMsg,
       Event.requeueWithoutBackoff (requeueDelay d.nsqMsg.Attempts)] := by
  simp [requeue, Delivery.emit]

theorem requeue_issuesOne (e : Env) (ns : List Nat) (d : Delivery) :
    IssuesOneBrokerOp d.trace (requeue e ns d).trace := by
  simp [IssuesOneBrokerOp, requeue_trace, countFinish, countRequeue]

theorem dieOk_issuesOne (e : Env) (d : Delivery) :
    IssuesOneBrokerOp d.trace (dieOk e d).trace := by
  unfold dieOk
  split <;> simp [IssuesOneBrokerOp, Delivery.emit, countFinish, countRequeue]

theorem discard_issuesOne (e : Env) (d : Delivery) :
    IssuesOneBrokerOp d.trace (discard e d).trace := by
  unfold discard
  split <;> simp [IssuesOneBrokerOp, requeue_trace, Delivery.emit, countFinish, countRequeue]

theorem bounce_issuesOne (e : Env) (msg : String) (d : Delivery) :
    IssuesOneBrokerOp d.trace (bounce e msg d).trace := by
  unfold bounce
  cases e.deleteErr <;> cases e.parseFilesErr <;> dsimp only <;>
    (repeat' split) <;>
    simp [IssuesOneBrokerOp, requeue_trace, Delivery.emit, countFinish, countRequeue]

theorem dieTemp_issuesOne (e : Env) (msg : String) (d : Delivery) :
    IssuesOneBrokerOp d.trace (dieTemp e msg d).trace := by
  unfold dieTemp diePerm
  split
  · exact requeue_issuesOne e [] d
  · exact bounce_issuesOne e _ d

theorem runHandler_issuesOne (e : Env) (c : HandlerCall) (d : Delivery) :
    IssuesOneBrokerOp d.trace (runHandler e c d).trace := by
  cases c with
  | dieOk => exact dieOk_issuesOne e d
  | dieTemp msg => exact dieTemp_issuesOne e msg d
  | diePerm msg => exact bounce_issuesOne e msg d
  | discard => exact discard_issuesOne e d
  | bounce msg => exact bounce_issuesOne e msg d
  | requeue ns => exact requeue_issuesOne e ns d

/-- Calls that are not broker operations may be moved into the added part. -/
theorem issuesOne_of_emit {t t' : List Event} (ev : Event)
    (hf : countFinish [ev] = 0) (hr : countRequeue [ev] = 0)
    (h : IssuesOneBrokerOp (t ++ [ev]) t') : IssuesOneBrokerOp t t' := by
  obtain ⟨h1, h2⟩ := h
  generalize newEvents (t ++ [ev]) t' = n at h1 h2
  subst h1
  have hn : newEvents t (t ++ [ev] ++ n) = [ev] ++ n := by
    rw [List.append_assoc]; exact newEvents_append t _
  refine ⟨by rw [hn, List.append_assoc], ?_⟩
  rw [hn, countFinish_append, countRequeue_append, hf, hr]
  simpa using h2

theorem deliverLocal_issuesOne (e : Env) (d : Delivery) :
    IssuesOneBrokerOp d.trace (deliverLocal e d).trace :=
  issuesOne_of_emit Event.deliverLocal rfl rfl (runHandler_issuesOne e e.deliverLocal _)

theorem deliverRemote_issuesOne (e : Env) (d : Delivery) :
    IssuesOneBrokerOp d.trace (deliverRemote e d).trace :=
  issuesOne_of_emit Event.deliverRemote rfl rfl (runHandler_issuesOne e e.deliverRemote _)

/-- Every `QueueAddMessage` call that `bounce` adds carries the envelope
with sender `""` and the job's `MailFrom` as only recipient, and no routing hint. -/
theorem bounce_enqueue_envelope (e : Env) (msg : String) (d : Delivery)
    (body : Bytes) (env : Envelope) (hint : String)
    (h : Event.queueAddMessage body env hint ∈ newEvents d.trace (bounce e msg d).trace) :
    env = bounceEnvelope d ∧ hint = "" := by
  revert h
  unfold bounce
  cases e.deleteErr <;> cases e.parseFilesErr <;> dsimp only <;>
    (repeat' split) <;>
    simp [requeue_trace, Delivery.emit, bounceEnvelope]

/-- Saturation does not change a comparison with a bound inside the `int64` range. -/
theorem timeSub_lt_iff (t u b : Int) (hlo : minDuration < b) (hhi : b ≤ maxDuration) :
    timeSub t u < b ↔ t - u < b := by
  unfold timeSub
  unfold minDuration at *
  unfold maxDuration at *
  split
  · constructor <;> intro <;> omega
  · split
    · constructor <;> intro <;> omega
    · rfl

/-- Saturation does not change a comparison with a bound inside the `int64` range. -/
theorem lt_timeSub_iff (t u b : Int) (hlo : minDuration ≤ b) (hhi : b < maxDuration) :
    b < timeSub t u ↔ b < t - u := by
  unfold timeSub
  unfold minDuration at *
  unfold maxDuration at *
  split
  · constructor <;> intro <;> omega
  · split
    · constructor <;> intro <;> omega
    · rfl

/-- The staleness test of `processMsg` compares the exact age with one hour. -/
theorem stale_iff (now t : Int) : timeSince now t > 3600 * Second ↔ now - t > 3600 * Second := by
  have h := lt_timeSub_iff now t (3600 * Second) (by unfold minDuration Second; omega)
    (by unfold maxDuration Second; omega)
  exact h

/-! ## C1 : broker operations of one processing attempt -/

/-- C1 (as stated, refuted): when the broker payload does not decode,
`processMsg` returns without any call at all, so the attempt issues no terminal
broker operation instead of exactly one. -/
theorem processMsg_undecodable_issues_none :
    (processMsg envUndecodable sampleJob).trace = sampleJob.trace ∧
    ¬ IssuesOneBrokerOp sampleJob.trace (processMsg envUndecodable sampleJob).trace := by
  have h : (processMsg envUndecodable sampleJob).trace = sampleJob.trace := by
    simp [processMsg, envUndecodable]
  refine ⟨h, ?_⟩
  rw [h]
  simp [IssuesOneBrokerOp, countFinish, countRequeue]

/-- C1 (amended): one attempt of `processMsg` issues no broker operation when
the payload does not decode (no call at all) or when the reloaded record is in
progress (Status 0) with `LastUpdate` at most one hour old (only the record
lookup is issued); in every other case, whatever the collaborators answer and
whichever terminal handler the delivery strategy ends with, it issues exactly
one terminal broker operation, a `Finish` or a `RequeueWithoutBackoff`. -/
theorem processMsg_broker_ops (e : Env) (d : Delivery) :
    match e.unmarshal d.nsqMsg.Body with
    | Except.error _ => (processMsg e d).trace = d.trace
    | Except.ok q0 =>
      match e.updateFromDb q0 with
      | DbResult.found q =>
        if q.Status = 0 ∧ timeSince e.now q.LastUpdate ≤ 3600 * Second then
          (processMsg e d).trace = d.trace ++ [Event.updateFromDb q0.Key]
        else
          IssuesOneBrokerOp d.trace (processMsg e d).trace
      | DbResult.recordNotFound => IssuesOneBrokerOp d.trace (processMsg e d).trace
      | DbResult.otherError _ => IssuesOneBrokerOp d.trace (processMsg e d).trace := by
  unfold processMsg
  cases e.unmarshal d.nsqMsg.Body with
  | error err => rfl
  | ok q0 =>
    dsimp only
    cases e.updateFromDb q0 with
    | recordNotFound =>
      exact issuesOne_of_emit (Event.updateFromDb q0.Key) rfl rfl (discard_issuesOne e _)
    | otherError m =>
      exact issuesOne_of_emit (Event.updateFromDb q0.Key) rfl rfl (requeue_issuesOne e [] _)
    | found q =>
      dsimp only
      by_cases h0 : q.Status = 0
      · by_cases hold : timeSince e.now q.LastUpdate > 3600 * Second
        · rw [if_neg (by intro h; exact absurd hold (not_lt.mpr h.2)), if_pos h0, if_pos hold]
          exact issuesOne_of_emit (Event.updateFromDb q0.Key) rfl rfl (requeue_issuesOne e [2] _)
        · rw [if_pos ⟨h0, not_lt.mp hold⟩, if_pos h0, if_neg hold]
          rfl
      · rw [if_neg (fun h => h0 h.1), if_neg h0]
        refine issuesOne_of_emit (Event.updateFromDb q0.Key) rfl rfl ?_
        by_cases h1 : q.Status = 1
        · rw [if_pos h1]
          exact issuesOne_of_emit (Event.saveInDb _) rfl rfl (discard_issuesOne e _)
        · rw [if_neg h1]
          refine issuesOne_of_emit (Event.saveInDb { q with Status := 0 }) rfl rfl ?_
          refine issuesOne_of_emit Event.storeNew rfl rfl ?_
          cases e.storeNewErr with
          | some err => exact requeue_issuesOne e [] _
          | none =>
            dsimp only
            refine issuesOne_of_emit (Event.storeGet q.Key) rfl rfl ?_
            cases e.storeGetErr with
            | some err => exact dieTemp_issuesOne e _ _
            | none =>
              dsimp only
              refine issuesOne_of_emit Event.storeRead rfl rfl ?_
              cases e.storeRead with
              | error err => exact dieTemp_issuesOne e _ _
              | ok t =>
                dsimp only
                split
                · exact bounce_issuesOne e _ _
                · split
                  · exact dieTemp_issuesOne e _ _
                  · split
                    · exact deliverLocal_issuesOne e _
                    · exact deliverRemote_issuesOne e _

/-! ## C2 : every terminal handler issues exactly one broker operation -/

/-- C2: for every job state, reason string, step override and every answer of
the record store, template rendering and bounce enqueue, one call of each of
`dieOk`, `dieTemp`, `diePerm`, `discard`, `bounce` and `requeue` only adds
calls to the trace and adds exactly one broker operation: one `Finish` and no
requeue, or one `RequeueWithoutBackoff` and no `Finish`. -/
theorem terminal_handlers_issue_one_broker_op (e : Env) (d : Delivery) (msg : String)
    (newStatus : List Nat) :
    IssuesOneBrokerOp d.trace (dieOk e d).trace ∧
    IssuesOneBrokerOp d.trace (dieTemp e msg d).trace ∧
    IssuesOneBrokerOp d.trace (diePerm e msg d).trace ∧
    IssuesOneBrokerOp d.trace (discard e d).trace ∧
    IssuesOneBrokerOp d.trace (bounce e msg d).trace ∧
    IssuesOneBrokerOp d.trace (requeue e newStatus d).trace :=
  ⟨dieOk_issuesOne e d, dieTemp_issuesOne e msg d, bounce_issuesOne e msg d,
   discard_issuesOne e d, bounce_issuesOne e msg d, requeue_issuesOne e newStatus d⟩

/-! ## C3 : a bounce of a bounce is only discarded -/

/-- C3: when the job's `MailFrom` is `""` or `"#@[]"`, `bounce` never calls
`QueueAddMessage`; it behaves as `discard`: it deletes the persisted record,
then acknowledges the broker message, or, when the delete fails, requeues with
step 1. -/
theorem bounce_of_a_bounce_only_discards (e : Env) (errMsg : String) (d : Delivery)
    (h : d.qMsg.MailFrom = "" ∨ d.qMsg.MailFrom = "#@[]") :
    (∀ b env hint, Event.queueAddMessage b env hint ∉ newEvents d.trace (bounce e errMsg d).trace) ∧
    bounce e errMsg d = discard e d ∧
    (bounce e errMsg d).trace = d.trace ++
      (match e.deleteErr with
       | none => [Event.delete d.qMsg.Key, Event.finish]
       | some _ => [Event.delete d.qMsg.Key, Event.saveInDb (requeuedRecord e d 1),
                    Event.requeueWithoutBackoff (requeueDelay d.nsqMsg.Attempts)]) := by
  have hb : bounce e errMsg d = discard e d := by
    unfold bounce discard
    rcases h with h | h
    · rw [if_pos h]
    · by_cases h0 : d.qMsg.MailFrom = ""
      · rw [if_pos h0]
      · rw [if_neg h0, if_pos h]
  have ht : (discard e d).trace = d.trace ++
      (match e.deleteErr with
       | none => [Event.delete d.qMsg.Key, Event.finish]
       | some _ => [Event.delete d.qMsg.Key, Event.saveInDb (requeuedRecord e d 1),
                    Event.requeueWithoutBackoff (requeueDelay d.nsqMsg.Attempts)]) := by
    unfold discard
    cases e.deleteErr <;> simp [requeue, requeuedRecord, Delivery.emit]
  refine ⟨?_, hb, hb ▸ ht⟩
  rw [hb, ht, newEvents_append]
  intro b env hint
  cases e.deleteErr <;> simp

/-- C3 at a concrete input: the double-bounce job, with every collaborator succeeding. -/
theorem bounce_of_a_bounce_only_discards_witness :
    (doubleBounceJob.qMsg.MailFrom = "" ∨ doubleBounceJob.qMsg.MailFrom = "#@[]") ∧
    (bounce envOk "550 no such user" doubleBounceJob).trace =
      [Event.delete "7f88b728", Event.finish] :=
  ⟨Or.inl rfl,
   (bounce_of_a_bounce_only_discards envOk "550 no such user" doubleBounceJob (Or.inl rfl)).2.2⟩

/-! ## C4 : the bounce that is enqueued -/

/-- C4: when the job's `MailFrom` is neither `""` nor `"#@[]"` and template
parsing, execution, the read of the rendered buffer, line-ending conversion,
the enqueue and the record delete all succeed, `bounce` calls
`QueueAddMessage` exactly once, with the envelope of sender `""` and single
recipient the job's `MailFrom`, then deletes the persisted record and
acknowledges the broker message. Moreover every `QueueAddMessage` call that any
run of `bounce` adds has envelope sender `""` (hence not `"#@[]"`) and the
job's `MailFrom` as its single recipient. -/
theorem bounce_enqueues_one_bounce_to_sender (e : Env) (errMsg : String) (d : Delivery)
    (buf b0 b newId : String)
    (h1 : d.qMsg.MailFrom ≠ "") (h2 : d.qMsg.MailFrom ≠ "#@[]")
    (hp : e.parseFilesErr = none)
    (hx : e.execute (bounceTemplateData e errMsg d) = Except.ok buf)
    (hr : e.bufReadAll buf = Except.ok b0)
    (hu : e.unix2dos b0 = Except.ok b)
    (hq : e.queueAddMessage b { MailFrom := "", RcptTo := [d.qMsg.MailFrom] } "" = Except.ok newId)
    (hd : e.deleteErr = none) :
    (bounce e errMsg d).trace = d.trace ++
      [Event.queueAddMessage b { MailFrom := "", RcptTo := [d.qMsg.MailFrom] } "",
       Event.delete d.qMsg.Key, Event.finish] ∧
    ∀ (e' : Env) (msg' : String) (d' : Delivery) (body : Bytes) (env : Envelope) (hint : String),
      Event.queueAddMessage body env hint ∈ newEvents d'.trace (bounce e' msg' d').trace →
      env.MailFrom = "" ∧ env.MailFrom ≠ "#@[]" ∧ env.RcptTo = [d'.qMsg.MailFrom] := by
  constructor
  · unfold bounce
    rw [if_neg h1, if_neg h2]
    simp [hp, hx, hr, hu, bounceEnvelope, hq, hd, Delivery.emit]
  · intro e' msg' d' body env hint hmem
    obtain ⟨henv, _⟩ := bounce_enqueue_envelope e' msg' d' body env hint hmem
    subst henv
    simp [bounceEnvelope]

/-- C4 at the spec's scenario: the job from `a@b.com`, failing with `550 no such user`,
every collaborator succeeding. -/
theorem bounce_enqueues_one_bounce_to_sender_witness :
    (bounce envOk "550 no such user" sampleJob).trace = sampleJob.trace ++
      [Event.queueAddMessage "rendered bounce" { MailFrom := "", RcptTo := ["a@b.com"] } "",
       Event.delete "7f88b728", Event.finish] :=
  (bounce_enqueues_one_bounce_to_sender envOk "550 no such user" sampleJob
    "rendered bounce" "rendered bounce" "rendered bounce" "newid"
    (by decide) (by decide) rfl rfl rfl rfl rfl rfl).1

/-! ## C5 : the persisted record is missing -/

/-- C5 (as stated, refuted): with the record not found, `processMsg` issues a
delete on the record store before it acknowledges; and when that delete fails it
saves the record with Status 1 and requeues the broker message instead of
acknowledging it. -/
theorem processMsg_record_missing_deletes_and_may_requeue :
    (processMsg envRecordMissing sampleJob).trace =
      [Event.updateFromDb "7f88b728", Event.delete "7f88b728", Event.finish] ∧
    (processMsg envRecordMissingDeleteFails sampleJob).trace =
      [Event.updateFromDb "7f88b728", Event.delete "7f88b728",
       Event.saveInDb { sampleRecord with NextDeliveryScheduledAt := 160 * Second, Status := 1 },
       Event.requeueWithoutBackoff (60 * Second)] := by
  constructor
  · simp [processMsg, discard, envRecordMissing, envOk, sampleJob, sampleRecord, Delivery.emit]
  · simp [processMsg, discard, requeue, requeueDelay, wrapUint16, envRecordMissingDeleteFails,
      envOk, sampleJob, sampleRecord, Delivery.emit, Second]

/-- C5 (amended): when the payload decodes and the record lookup reports
record-not-found, `processMsg` hands over to `discard`: after the lookup it
issues one delete on the record store; when the delete succeeds it acknowledges
the broker message and does nothing else; when the delete fails it saves the
record with Status 1 and requeues the broker message. In both cases it calls
neither the bounce enqueue nor the blob store. -/
theorem processMsg_record_missing (e : Env) (d : Delivery) (q0 : QMessage)
    (hdec : e.unmarshal d.nsqMsg.Body = Except.ok q0)
    (hmiss : e.updateFromDb q0 = DbResult.recordNotFound) :
    (processMsg e d).trace = d.trace ++
      (match e.deleteErr with
       | none => [Event.updateFromDb q0.Key, Event.delete q0.Key, Event.finish]
       | some _ =>
         [Event.updateFromDb q0.Key, Event.delete q0.Key,
          Event.saveInDb { q0 with
            NextDeliveryScheduledAt := e.now + requeueDelay d.nsqMsg.Attempts, Status := 1 },
          Event.requeueWithoutBackoff (requeueDelay d.nsqMsg.Attempts)]) := by
  unfold processMsg
  simp only [hdec, hmiss]
  unfold discard
  cases e.deleteErr <;> simp [requeue, Delivery.emit]

/-- C5 (amended) at a concrete input: record missing, delete succeeding. -/
theorem processMsg_record_missing_witness :
    (processMsg envRecordMissing sampleJob).trace = sampleJob.trace ++
      [Event.updateFromDb "7f88b728", Event.delete "7f88b728", Event.finish] :=
  processMsg_record_missing envRecordMissing sampleJob sampleRecord rfl rfl

/-! ## C6 : a record in progress that is not stale -/

/-- C6: when the reloaded record has Status 0 and `LastUpdate` is less than one
hour before now, `processMsg` issues nothing but the record lookup: no save, no
delete, no blob-store call, no `Finish` and no requeue; the raw data and the
store handle of the delivery are left as they were. -/
theorem processMsg_in_progress_untouched (e : Env) (d : Delivery) (q0 q : QMessage)
    (hdec : e.unmarshal d.nsqMsg.Body = Except.ok q0)
    (hfound : e.updateFromDb q0 = DbResult.found q)
    (hstatus : q.Status = 0)
    (hage : e.now - q.LastUpdate < 3600 * Second) :
    (processMsg e d).trace = d.trace ++ [Event.updateFromDb q0.Key] ∧
    (processMsg e d).qMsg = q ∧
    (processMsg e d).rawData = d.rawData ∧
    (processMsg e d).qStore = d.qStore := by
  have hns : ¬ timeSince e.now q.LastUpdate > 3600 * Second := by
    rw [stale_iff]; omega
  unfold processMsg
  simp [hdec, hfound, hstatus, hns, Delivery.emit]

/-- C6 at a concrete input: in progress, last updated 59 minutes ago. -/
theorem processMsg_in_progress_untouched_witness :
    (processMsg (envInProgress (3540 * Second)) sampleJob).trace =
      sampleJob.trace ++ [Event.updateFromDb "7f88b728"] :=
  (processMsg_in_progress_untouched (envInProgress (3540 * Second)) sampleJob sampleRecord
    { sampleRecord with Status := 0 } rfl rfl rfl (by decide)).1

/-! ## C7 : a record in progress that is stale -/

/-- C7 (as stated, refuted): with Status 0 and `LastUpdate` exactly one hour
before now, `processMsg` does not requeue; it issues the record lookup only. -/
theorem processMsg_in_progress_exactly_one_hour :
    (envInProgress (3600 * Second)).now - 0 = 3600 * Second ∧
    (processMsg (envInProgress (3600 * Second)) sampleJob).trace =
      [Event.updateFromDb "7f88b728"] := by
  constructor
  · simp [envInProgress]
  · have hns : ¬ timeSince (3600 * Second) 0 > 3600 * Second := by
      rw [stale_iff]; omega
    simp [processMsg, envInProgress, envOk, sampleJob, sampleRecord, Delivery.emit, hns]

/-- C7 (amended): when the reloaded record has Status 0 and `LastUpdate` is more
than one hour before now, `processMsg` requeues with step 2: after the lookup it
saves the record with Status 2 and issues one `RequeueWithoutBackoff`; it makes
no blob-store call. -/
theorem processMsg_in_progress_stale (e : Env) (d : Delivery) (q0 q : QMessage)
    (hdec : e.unmarshal d.nsqMsg.Body = Except.ok q0)
    (hfound : e.updateFromDb q0 = DbResult.found q)
    (hstatus : q.Status = 0)
    (hage : e.now - q.LastUpdate > 3600 * Second) :
    (processMsg e d).trace = d.trace ++
      [Event.updateFromDb q0.Key,
       Event.saveInDb { q with
         NextDeliveryScheduledAt := e.now + requeueDelay d.nsqMsg.Attempts, Status := 2 },
       Event.requeueWithoutBackoff (requeueDelay d.nsqMsg.Attempts)] ∧
    (processMsg e d).qMsg.Status = 2 := by
  have hs : timeSince e.now q.LastUpdate > 3600 * Second := by
    rw [stale_iff]; exact hage
  unfold processMsg
  simp only [hdec, hfound, hstatus, if_pos, if_pos hs]
  simp [requeue, Delivery.emit]

/-- C7 (amended) at the spec's scenario: in progress, last updated two hours ago. -/
theorem processMsg_in_progress_stale_witness :
    (processMsg (envInProgress (7200 * Second)) sampleJob).trace = sampleJob.trace ++
      [Event.updateFromDb "7f88b728",
       Event.saveInDb { sampleRecord with
         NextDeliveryScheduledAt := 7200 * Second + requeueDelay 1, Status := 2 },
       Event.requeueWithoutBackoff (requeueDelay 1)] :=
  (processMsg_in_progress_stale (envInProgress (7200 * Second)) sampleJob sampleRecord
    { sampleRecord with Status := 0 } rfl rfl rfl (by decide)).1

/-! ## C8 : the requeue delay -/

/-- While `Attempts * 60` fits in 16 bits, the delay is `Attempts` times 60 seconds. -/
theorem requeueDelay_of_le (attempts : Nat) (h : attempts ≤ 1092) :
    requeueDelay attempts = (attempts : Int) * 60 * Second := by
  unfold requeueDelay wrapUint16
  rw [Nat.mod_eq_of_lt (by omega)]
  push_cast
  ring

/-- C8 (the code at the failing input): on the 1093rd attempt the product
`Attempts*60` wraps in `uint16`, so `requeue` passes a delay of 44 seconds to
`RequeueWithoutBackoff` and schedules the next delivery 44 seconds from now,
while `attempts x 60 seconds` is 65580 seconds. -/
theorem requeue_delay_wraps_at_1093_attempts :
    (requeue envOk [] manyAttemptsJob).trace =
      [Event.saveInDb { sampleRecord with
         NextDeliveryScheduledAt := envOk.now + 44 * Second, Status := 2 },
       Event.requeueWithoutBackoff (44 * Second)] ∧
    (44 * Second ≠ ((1093 * 60 : Nat) : Int) * Second) ∧
    requeueDelay 1092 = 65520 * Second := by
  refine ⟨?_, ?_, ?_⟩
  · simp [requeue, requeueDelay, wrapUint16, manyAttemptsJob, sampleJob, Delivery.emit]
  · unfold Second; omega
  · simp [requeueDelay, wrapUint16]

/-! ## C9 : temporary failure -/

/-- Within the range of `time.Duration`: provided the configured queue
lifetime, in minutes, converts to nanoseconds without `int64` overflow, when
the time since `AddedAt` is strictly under that lifetime,
`dieTemp reason` is `requeue()` with the default step 2 (it saves Status 2 and
requeues, and issues no delete, no acknowledge and no bounce enqueue); otherwise
`dieTemp reason` is `bounce` of the reason followed by the fixed explanation. -/
theorem dieTemp_requeues_or_bounces (e : Env) (reason : String) (d : Delivery)
    (hlo : minDuration < e.queueLifetime * Minute)
    (hhi : e.queueLifetime * Minute ≤ maxDuration) :
    (e.now - d.qMsg.AddedAt < e.queueLifetime * Minute →
      dieTemp e reason d = requeue e [] d ∧
      (dieTemp e reason d).trace = d.trace ++
        [Event.saveInDb (requeuedRecord e d 2),
         Event.requeueWithoutBackoff (requeueDelay d.nsqMsg.Attempts)]) ∧
    (¬ e.now - d.qMsg.AddedAt < e.queueLifetime * Minute →
      dieTemp e reason d = bounce e (reason ++
        "\r\nI'm not going to try again, this message has been in the queue for too long.") d) := by
  have hw : wrapInt64 (e.queueLifetime * Minute) = e.queueLifetime * Minute := by
    unfold wrapInt64
    unfold minDuration at hlo
    unfold maxDuration at hhi
    omega
  have hiff : timeSince e.now d.qMsg.AddedAt < wrapInt64 (e.queueLifetime * Minute) ↔
      e.now - d.qMsg.AddedAt < e.queueLifetime * Minute := by
    rw [hw]; exact timeSub_lt_iff _ _ _ hlo hhi
  constructor
  · intro h
    have hreq : dieTemp e reason d = requeue e [] d := by
      unfold dieTemp; rw [if_pos (hiff.mpr h)]
    refine ⟨hreq, ?_⟩
    rw [hreq]
    simp [requeue, requeuedRecord, Delivery.emit]
  · intro h
    unfold dieTemp diePerm
    rw [if_neg (fun h' => h (hiff.mp h'))]

/-- The in-range case at a concrete input: a job queued 100 seconds ago with a
lifetime of 10080 minutes is requeued. -/
theorem dieTemp_requeues_or_bounces_witness :
    dieTemp envOk "421 too busy" sampleJob = requeue envOk [] sampleJob :=
  ((dieTemp_requeues_or_bounces envOk "421 too busy" sampleJob (by decide) (by decide)).1
    (by decide)).1

/-- C9 (the code at the failing input): with a configured queue lifetime of
2147483647 minutes, the product `time.Duration(lifetime) * time.Minute` of line
170 overflows `int64` and wraps to a negative duration. A job added 100 seconds
ago, far under the configured lifetime, is then not requeued: `dieTemp` is
`bounce` of the reason followed by the fixed explanation, which enqueues a
bounce, deletes the record and acknowledges the broker message, with no requeue. -/
theorem dieTemp_lifetime_overflow_bounces_young_job :
    envHugeLifetime.now - sampleJob.qMsg.AddedAt = 100 * Second ∧
    100 * Second < envHugeLifetime.queueLifetime * Minute ∧
    wrapInt64 (envHugeLifetime.queueLifetime * Minute) = -278189695966861312 ∧
    dieTemp envHugeLifetime "421 too busy" sampleJob =
      bounce envHugeLifetime ("421 too busy" ++
        "\r\nI'm not going to try again, this message has been in the queue for too long.")
        sampleJob ∧
    (dieTemp envHugeLifetime "421 too busy" sampleJob).trace =
      [Event.queueAddMessage "rendered bounce" { MailFrom := "", RcptTo := ["a@b.com"] } "",
       Event.delete "7f88b728", Event.finish] ∧
    countRequeue (dieTemp envHugeLifetime "421 too busy" sampleJob).trace = 0 ∧
    (requeue envHugeLifetime [] sampleJob).trace =
      [Event.saveInDb (requeuedRecord envHugeLifetime sampleJob 2),
       Event.requeueWithoutBackoff (requeueDelay 1)] := by
  have hnot : ¬ timeSince envHugeLifetime.now sampleJob.qMsg.AddedAt <
      wrapInt64 (envHugeLifetime.queueLifetime * Minute) := by decide
  have hdie : dieTemp envHugeLifetime "421 too busy" sampleJob =
      bounce envHugeLifetime ("421 too busy" ++
        "\r\nI'm not going to try again, this message has been in the queue for too long.")
        sampleJob := by
    unfold dieTemp diePerm
    rw [if_neg hnot]
  have htrace : (dieTemp envHugeLifetime "421 too busy" sampleJob).trace =
      [Event.queueAddMessage "rendered bounce" { MailFrom := "", RcptTo := ["a@b.com"] } "",
       Event.delete "7f88b728", Event.finish] := by
    rw [hdie]
    simp [bounce, envHugeLifetime, envOk, sampleJob, sampleRecord, bounceRawData,
      bounceEnvelope, Delivery.emit]
  refine ⟨by decide, by decide, by decide, hdie, htrace, ?_, ?_⟩
  · rw [htrace]; decide
  · simp [requeue, requeuedRecord, Delivery.emit, sampleJob]

/-! ## C10 : a bounce that cannot be composed or enqueued -/

/-- C10: when the job's `MailFrom` is neither `""` nor `"#@[]"` and the first
failing step of `bounce` is template parsing, template execution, the read of
the rendered buffer, line-ending conversion or the bounce enqueue, `bounce`
issues no delete and no `Finish`; it saves the original record with Status 3
and issues one `RequeueWithoutBackoff`, preceded by the failed
`QueueAddMessage` call when the enqueue was reached. -/
theorem bounce_failure_requeues_step3 (e : Env) (errMsg : String) (d : Delivery)
    (h1 : d.qMsg.MailFrom ≠ "") (h2 : d.qMsg.MailFrom ≠ "#@[]")
    (hfail : e.parseFilesErr ≠ none ∨
      (∃ m, e.execute (bounceTemplateData e errMsg d) = Except.error m) ∨
      (∃ buf m, e.execute (bounceTemplateData e errMsg d) = Except.ok buf ∧
        e.bufReadAll buf = Except.error m) ∨
      (∃ buf b0 m, e.execute (bounceTemplateData e errMsg d) = Except.ok buf ∧
        e.bufReadAll buf = Except.ok b0 ∧ e.unix2dos b0 = Except.error m) ∨
      (∃ buf b0 b m, e.execute (bounceTemplateData e errMsg d) = Except.ok buf ∧
        e.bufReadAll buf = Except.ok b0 ∧ e.unix2dos b0 = Except.ok b ∧
        e.queueAddMessage b (bounceEnvelope d) "" = Except.error m)) :
    (∀ k, Event.delete k ∉ newEvents d.trace (bounce e errMsg d).trace) ∧
    Event.finish ∉ newEvents d.trace (bounce e errMsg d).trace ∧
    (bounce e errMsg d).qMsg.Status = 3 ∧
    ((bounce e errMsg d).trace = d.trace ++
        [Event.saveInDb (requeuedRecord e d 3),
         Event.requeueWithoutBackoff (requeueDelay d.nsqMsg.Attempts)] ∨
     ∃ b, (bounce e errMsg d).trace = d.trace ++
        [Event.queueAddMessage b (bounceEnvelope d) "",
         Event.saveInDb (requeuedRecord e d 3),
         Event.requeueWithoutBackoff (requeueDelay d.nsqMsg.Attempts)]) := by
  unfold bounce
  rw [if_neg h1, if_neg h2]
  dsimp only
  cases hp : e.parseFilesErr with
  | some err => simp [requeue, requeuedRecord, Delivery.emit]
  | none =>
    cases hx : e.execute (bounceTemplateData e errMsg d) with
    | error m => simp [requeue, requeuedRecord, Delivery.emit]
    | ok buf =>
      cases hr : e.bufReadAll buf with
      | error m => simp [hr, requeue, requeuedRecord, Delivery.emit]
      | ok b0 =>
        cases hu : e.unix2dos b0 with
        | error m => simp [hr, hu, requeue, requeuedRecord, Delivery.emit]
        | ok b =>
          have hq : ∃ m, e.queueAddMessage b (bounceEnvelope d) "" = Except.error m := by
            rcases hfail with h | ⟨m, h⟩ | ⟨bufx, m, h, ha⟩ | ⟨bufx, b0x, m, h, ha, hb⟩ |
              ⟨bufx, b0x, bx, m, h, ha, hb, hc⟩
            · exact absurd hp h
            · rw [hx] at h; cases h
            · rw [hx] at h; cases h; rw [hr] at ha; cases ha
            · rw [hx] at h; cases h; rw [hr] at ha; cases ha; rw [hu] at hb; cases hb
            · rw [hx] at h; cases h; rw [hr] at ha; cases ha; rw [hu] at hb; cases hb
              exact ⟨m, hc⟩
          obtain ⟨m, hq⟩ := hq
          simp only [bounceEnvelope] at hq
          simp [hr, hu, hq, requeue, requeuedRecord, Delivery.emit, bounceEnvelope]

/-- C10 at a concrete input: the bounce enqueue fails for the job from `a@b.com`. -/
theorem bounce_failure_requeues_step3_witness :
    (bounce envEnqueueFails "550 no such user" sampleJob).qMsg.Status = 3 ∧
    Event.finish ∉ newEvents sampleJob.trace
      (bounce envEnqueueFails "550 no such user" sampleJob).trace :=
  have h := bounce_failure_requeues_step3 envEnqueueFails "550 no such user" sampleJob
    (by decide) (by decide)
    (Or.inr (Or.inr (Or.inr (Or.inr
      ⟨"rendered bounce", "rendered bounce", "rendered bounce", "queue down", rfl, rfl, rfl, rfl⟩))))
  ⟨h.2.2.1, h.2.1⟩

/-! ## C11, C12 : the SMTP reply classifier -/

theorem digitValue_ofNat (d : Nat) (h : d < 10) : digitValue (Char.ofNat (48 + d)) = some d := by
  interval_cases d <;> rfl

theorem ofNat_digit_ne_minus (d : Nat) (h : d < 10) : Char.ofNat (48 + d) ≠ '-' := by
  interval_cases d <;> decide

theorem ofNat_digit_ne_plus (d : Nat) (h : d < 10) : Char.ofNat (48 + d) ≠ '+' := by
  interval_cases d <;> decide

theorem atoi_threeDigits (c : Nat) (hc : c ≤ 999) : atoi (threeDigits c) = some (c : Int) := by
  have h1 : c / 100 < 10 := by omega
  have h2 : c / 10 % 10 < 10 := by omega
  have h3 : c % 10 < 10 := by omega
  unfold threeDigits atoi
  dsimp only
  rw [if_neg (ofNat_digit_ne_minus _ h1), if_neg (ofNat_digit_ne_plus _ h1)]
  simp only [atoiDigits, digitValue_ofNat _ h1, digitValue_ofNat _ h2, digitValue_ofNat _ h3,
    Option.map_some']
  congr 2
  have : (0 * 10 + c / 100) * 10 + c / 10 % 10 = c / 10 := by omega
  rw [this]
  have : c / 10 * 10 + c % 10 = c := by omega
  rw [this]

/-- A line is rejected exactly when it is short, or its fourth character is
no separator, or `strconv.Atoi` rejects its first three characters. -/
theorem parseSmtpResponse_err_iff (line : String) :
    (parseSmtpResponse line).2 ≠ none ↔
      (line.length < 4 ∨ (line.data[3]? ≠ some ' ' ∧ line.data[3]? ≠ some '-') ∨
        atoi (line.data.take 3) = none) := by
  unfold parseSmtpResponse
  by_cases h : line.length < 4 ∨ (line.data[3]? ≠ some ' ' ∧ line.data[3]? ≠ some '-')
  · rw [if_pos h]
    simp only [ne_eq, reduceCtorEq, not_false_eq_true, true_iff]
    rcases h with h | h
    · exact Or.inl h
    · exact Or.inr (Or.inl h)
  · rw [if_neg h]
    cases hat : atoi (line.data.take 3) with
    | none => simp
    | some code =>
      simp only [ne_eq, not_true_eq_false, reduceCtorEq, or_false, false_iff]
      intro h'
      exact h (by rcases h' with h' | h'; exact Or.inl h'; exact Or.inr h')

/-- C11 (the code at failing inputs): a line whose first three characters are
a sign and two digits is accepted, with code 12 for `+12 ok` and code -12 for
`-12-ok`, although `+` and `-` are no decimal digits; `12  ok` with a space in
third place is rejected. -/
theorem parseSmtpResponse_accepts_signed_code :
    parseSmtpResponse "+12 ok" = ({ Code := 12, Msg := "ok" }, none) ∧
    parseSmtpResponse "-12-ok" = ({ Code := -12, Msg := "ok" }, none) ∧
    digitValue '+' = none ∧ digitValue '-' = none ∧
    (parseSmtpResponse "12  ok").2 ≠ none := by
  refine ⟨by decide, by decide, by decide, by decide, by decide⟩

/-- C12: for every code `c` up to 999 written with three decimal digits, every
separator (space or hyphen) and every message text `m`, the line made of the
digits, the separator and `m` parses without error, with `Code = c` and `Msg = m`. -/
theorem parseSmtpResponse_three_digit_code (c : Nat) (sep : Char) (m : String)
    (hc : c ≤ 999) (hsep : sep = ' ' ∨ sep = '-') :
    parseSmtpResponse (String.mk (threeDigits c ++ [sep]) ++ m) =
      ({ Code := (c : Int), Msg := m }, none) := by
  have hdata : (String.mk (threeDigits c ++ [sep]) ++ m).data =
      threeDigits c ++ sep :: m.data := by
    simp [String.data_append]
  have hlen : (String.mk (threeDigits c ++ [sep]) ++ m).length = 4 + m.length := by
    show (String.mk (threeDigits c ++ [sep]) ++ m).data.length = 4 + m.length
    rw [hdata]
    simp only [threeDigits, List.length_append, List.length_cons, List.length_nil,
      String.length]
    omega
  have h3 : (String.mk (threeDigits c ++ [sep]) ++ m).data[3]? = some sep := by
    rw [hdata]; simp [threeDigits]
  have htake : (String.mk (threeDigits c ++ [sep]) ++ m).data.take 3 = threeDigits c := by
    rw [hdata]; simp [threeDigits]
  have hdrop : (String.mk (threeDigits c ++ [sep]) ++ m).data.drop 4 = m.data := by
    rw [hdata]; simp [threeDigits]
  have hcond : ¬ ((String.mk (threeDigits c ++ [sep]) ++ m).length < 4 ∨
      ((String.mk (threeDigits c ++ [sep]) ++ m).data[3]? ≠ some ' ' ∧
       (String.mk (threeDigits c ++ [sep]) ++ m).data[3]? ≠ some '-')) := by
    rw [hlen, h3]
    rcases hsep with h | h <;> subst h <;> simp
  unfold parseSmtpResponse
  rw [if_neg hcond, htake, atoi_threeDigits c hc, hdrop]

/-- C12 at the spec's example line. -/
theorem parseSmtpResponse_three_digit_code_witness :
    parseSmtpResponse "550 mailbox unavailable" =
      ({ Code := 550, Msg := "mailbox unavailable" }, none) :=
  parseSmtpResponse_three_digit_code 550 ' ' "mailbox unavailable" (by decide) (Or.inl rfl)

/-! ## C13, C18 : classification of an SMTP error reply -/

/-- C13: when the reply line parses without error to code `c` and message `m`,
`handleSmtpError` makes exactly one terminal handler call: `diePerm` with the
text `remote <ip> reply: <m>` when `c > 499`, and `dieTemp` with that same text
when `c ≤ 499`. -/
theorem handleSmtpError_classifies (e : Env) (line ip : String) (d : Delivery)
    (c : Int) (m : String)
    (hparse : parseSmtpResponse line = ({ Code := c, Msg := m }, none)) :
    (c > 499 →
      handleSmtpErrorCalls line ip = [HandlerCall.diePerm ("remote " ++ ip ++ " reply: " ++ m)] ∧
      handleSmtpError e line ip d = diePerm e ("remote " ++ ip ++ " reply: " ++ m) d) ∧
    (c ≤ 499 →
      handleSmtpErrorCalls line ip = [HandlerCall.dieTemp ("remote " ++ ip ++ " reply: " ++ m)] ∧
      handleSmtpError e line ip d = dieTemp e ("remote " ++ ip ++ " reply: " ++ m) d) := by
  constructor
  · intro hc
    have hcalls : handleSmtpErrorCalls line ip =
        [HandlerCall.diePerm ("remote " ++ ip ++ " reply: " ++ m)] := by
      simp [handleSmtpErrorCalls, hparse, hc]
    exact ⟨hcalls, by simp [handleSmtpError, hcalls, runHandler]⟩
  · intro hc
    have hcalls : handleSmtpErrorCalls line ip =
        [HandlerCall.dieTemp ("remote " ++ ip ++ " reply: " ++ m)] := by
      simp [handleSmtpErrorCalls, hparse, not_lt.mpr hc]
    exact ⟨hcalls, by simp [handleSmtpError, hcalls, runHandler]⟩

/-- C13 at the spec's example: `550 mailbox unavailable` from 192.0.2.1 is permanent. -/
theorem handleSmtpError_classifies_witness :
    handleSmtpErrorCalls "550 mailbox unavailable" "192.0.2.1" =
      [HandlerCall.diePerm ("remote " ++ "192.0.2.1" ++ " reply: " ++ "mailbox unavailable")] :=
  ((handleSmtpError_classifies envOk "550 mailbox unavailable" "192.0.2.1" sampleJob 550
    "mailbox unavailable" (by decide)).1 (by decide)).1

/-- C18 (the code at the failing input): for the rejected line `bad`,
`handleSmtpError` calls `dieTemp` twice, first with the parse error and then
with an empty reply text. A job still within its queue lifetime is saved and
requeued twice; a job past its lifetime is bounced twice: two bounce jobs are
enqueued and the broker message is acknowledged twice. -/
theorem handleSmtpError_invalid_line_calls_dieTemp_twice :
    handleSmtpErrorCalls "bad" "192.0.2.1" =
      [HandlerCall.dieTemp "invalid smtp response from remote server: bad",
       HandlerCall.dieTemp "remote 192.0.2.1 reply: "] ∧
    countRequeue (handleSmtpError envOk "bad" "192.0.2.1" sampleJob).trace = 2 ∧
    (handleSmtpError envExpired "bad" "192.0.2.1" sampleJob).trace =
      [Event.queueAddMessage "rendered bounce" { MailFrom := "", RcptTo := ["a@b.com"] } "",
       Event.delete "7f88b728", Event.finish,
       Event.queueAddMessage "rendered bounce" { MailFrom := "", RcptTo := ["a@b.com"] } "",
       Event.delete "7f88b728", Event.finish] := by
  have hcalls : handleSmtpErrorCalls "bad" "192.0.2.1" =
      [HandlerCall.dieTemp "invalid smtp response from remote server: bad",
       HandlerCall.dieTemp "remote 192.0.2.1 reply: "] := by decide
  have hin : ∀ d : Delivery, d.qMsg.AddedAt = 0 →
      timeSince envOk.now d.qMsg.AddedAt < wrapInt64 (envOk.queueLifetime * Minute) := by
    intro d hd; rw [hd]; decide
  have hout : ∀ d : Delivery, d.qMsg.AddedAt = 0 →
      ¬ timeSince envExpired.now d.qMsg.AddedAt < wrapInt64 (envExpired.queueLifetime * Minute) := by
    intro d hd; rw [hd]; decide
  refine ⟨hcalls, ?_, ?_⟩
  · unfold handleSmtpError
    rw [hcalls]
    simp only [List.foldl, runHandler]
    have h1 : dieTemp envOk "invalid smtp response from remote server: bad" sampleJob =
        requeue envOk [] sampleJob := by
      unfold dieTemp; rw [if_pos (hin _ rfl)]
    rw [h1]
    have h2 : dieTemp envOk "remote 192.0.2.1 reply: " (requeue envOk [] sampleJob) =
        requeue envOk [] (requeue envOk [] sampleJob) := by
      unfold dieTemp; rw [if_pos (hin _ rfl)]
    rw [h2]
    simp [requeue_trace, countRequeue, sampleJob]
  · unfold handleSmtpError
    rw [hcalls]
    simp only [List.foldl, runHandler]
    unfold dieTemp diePerm
    rw [if_neg (hout _ rfl)]
    have hb : ∀ msg, bounce envExpired msg sampleJob =
        { sampleJob with
          rawData := some "Raw mail was not found in the store"
          trace := [Event.queueAddMessage "rendered bounce"
                      { MailFrom := "", RcptTo := ["a@b.com"] } "",
                    Event.delete "7f88b728", Event.finish] } := by
      intro msg
      simp [bounce, envExpired, envOk, sampleJob, sampleRecord, bounceRawData, bounceEnvelope,
        Delivery.emit]
    rw [hb, if_neg (hout _ rfl)]
    simp [bounce, envExpired, envOk, sampleJob, sampleRecord, bounceRawData, bounceEnvelope,
      Delivery.emit]

/-! ## C19, C20 : what a requeued original does on redelivery -/

/-- The calls that `bounce` adds never include a hand-over to a delivery strategy. -/
theorem bounce_no_delivery (e : Env) (msg : String) (d : Delivery) :
    Event.deliverLocal ∉ newEvents d.trace (bounce e msg d).trace ∧
    Event.deliverRemote ∉ newEvents d.trace (bounce e msg d).trace := by
  unfold bounce
  cases e.deleteErr <;> cases e.parseFilesErr <;> dsimp only <;>
    (repeat' split) <;>
    simp [requeue_trace, Delivery.emit]

/-- C19: (1) when `bounce` has enqueued the bounce job and the delete of the
original record then fails, the original is saved with Status 1 and requeued;
(2) for every record reloaded with Status 1, `processMsg` issues the lookup, a
save with Status 0 and a delete, followed by `Finish`, or by a save with
Status 1 and a requeue when the delete fails: it never calls the bounce enqueue
and never accesses the blob store. -/
theorem no_second_bounce_after_failed_delete
    (e : Env) (errMsg : String) (d : Delivery) (buf b0 b newId delErr : String)
    (h1 : d.qMsg.MailFrom ≠ "") (h2 : d.qMsg.MailFrom ≠ "#@[]")
    (hp : e.parseFilesErr = none)
    (hx : e.execute (bounceTemplateData e errMsg d) = Except.ok buf)
    (hr : e.bufReadAll buf = Except.ok b0)
    (hu : e.unix2dos b0 = Except.ok b)
    (hq : e.queueAddMessage b { MailFrom := "", RcptTo := [d.qMsg.MailFrom] } "" = Except.ok newId)
    (hd : e.deleteErr = some delErr)
    (e2 : Env) (d2 : Delivery) (q0 q : QMessage)
    (hdec : e2.unmarshal d2.nsqMsg.Body = Except.ok q0)
    (hfound : e2.updateFromDb q0 = DbResult.found q)
    (hstatus : q.Status = 1) :
    ((bounce e errMsg d).trace = d.trace ++
        [Event.queueAddMessage b { MailFrom := "", RcptTo := [d.qMsg.MailFrom] } "",
         Event.delete d.qMsg.Key,
         Event.saveInDb (requeuedRecord e d 1),
         Event.requeueWithoutBackoff (requeueDelay d.nsqMsg.Attempts)] ∧
      (bounce e errMsg d).qMsg.Status = 1) ∧
    ((processMsg e2 d2).trace = d2.trace ++
        (match e2.deleteErr with
         | none =>
           [Event.updateFromDb q0.Key, Event.saveInDb { q with Status := 0 },
            Event.delete q.Key, Event.finish]
         | some _ =>
           [Event.updateFromDb q0.Key, Event.saveInDb { q with Status := 0 },
            Event.delete q.Key,
            Event.saveInDb { q with
              NextDeliveryScheduledAt := e2.now + requeueDelay d2.nsqMsg.Attempts, Status := 1 },
            Event.requeueWithoutBackoff (requeueDelay d2.nsqMsg.Attempts)]) ∧
      (∀ body env hint,
        Event.queueAddMessage body env hint ∉ newEvents d2.trace (processMsg e2 d2).trace) ∧
      Event.storeNew ∉ newEvents d2.trace (processMsg e2 d2).trace ∧
      (∀ k, Event.storeGet k ∉ newEvents d2.trace (processMsg e2 d2).trace) ∧
      Event.storeRead ∉ newEvents d2.trace (processMsg e2 d2).trace) := by
  constructor
  · unfold bounce
    rw [if_neg h1, if_neg h2]
    simp [hp, hx, hr, hu, bounceEnvelope, hq, hd, Delivery.emit, requeue, requeuedRecord]
  · have ht : (processMsg e2 d2).trace = d2.trace ++
        (match e2.deleteErr with
         | none =>
           [Event.updateFromDb q0.Key, Event.saveInDb { q with Status := 0 },
            Event.delete q.Key, Event.finish]
         | some _ =>
           [Event.updateFromDb q0.Key, Event.saveInDb { q with Status := 0 },
            Event.delete q.Key,
            Event.saveInDb { q with
              NextDeliveryScheduledAt := e2.now + requeueDelay d2.nsqMsg.Attempts, Status := 1 },
            Event.requeueWithoutBackoff (requeueDelay d2.nsqMsg.Attempts)]) := by
      unfold processMsg
      simp only [hdec, hfound, hstatus]
      unfold discard
      cases e2.deleteErr <;> simp [requeue, Delivery.emit]
    refine ⟨ht, ?_⟩
    rw [ht, newEvents_append]
    cases e2.deleteErr <;> simp

/-- C19 at a concrete input: the delete fails after the enqueue, and the
record reloaded with Status 1 is then discarded. -/
theorem no_second_bounce_after_failed_delete_witness :
    (bounce envDeleteFails "550 no such user" sampleJob).qMsg.Status = 1 ∧
    (processMsg (envMarked 1) sampleJob).trace = sampleJob.trace ++
      [Event.updateFromDb "7f88b728", Event.saveInDb { sampleRecord with Status := 0 },
       Event.delete "7f88b728", Event.finish] :=
  have h := no_second_bounce_after_failed_delete envDeleteFails "550 no such user" sampleJob
    "rendered bounce" "rendered bounce" "rendered bounce" "newid" "db down"
    (by decide) (by decide) rfl rfl rfl rfl rfl rfl
    (envMarked 1) sampleJob sampleRecord { sampleRecord with Status := 1 } rfl rfl rfl
  ⟨h.1.2, h.2.1⟩

/-- C20: `requeue(3)` saves the record with Status 3; and for every record
reloaded with Status 3 whose raw body is fetched, `processMsg` is `bounce` with
the fixed reason `bounced by admin`, run after the lookup, the save with
Status 0 and the three blob-store calls: no reason of an earlier attempt is
used, and neither local nor remote delivery is attempted. -/
theorem retried_bounce_uses_fixed_reason
    (e0 : Env) (d0 : Delivery)
    (e : Env) (d : Delivery) (q0 q : QMessage) (t : Bytes)
    (hdec : e.unmarshal d.nsqMsg.Body = Except.ok q0)
    (hfound : e.updateFromDb q0 = DbResult.found q)
    (hstatus : q.Status = 3)
    (hnew : e.storeNewErr = none) (hget : e.storeGetErr = none)
    (hread : e.storeRead = Except.ok t) :
    ((requeue e0 [3] d0).qMsg.Status = 3 ∧
      (requeue e0 [3] d0).trace = d0.trace ++
        [Event.saveInDb (requeuedRecord e0 d0 3),
         Event.requeueWithoutBackoff (requeueDelay d0.nsqMsg.Attempts)]) ∧
    processMsg e d = bounce e "bounced by admin"
      { d with
        qMsg := { q with Status := 0 }
        rawData := some t
        qStore := true
        trace := d.trace ++
          [Event.updateFromDb q0.Key, Event.saveInDb { q with Status := 0 },
           Event.storeNew, Event.storeGet q.Key, Event.storeRead] } ∧
    Event.deliverLocal ∉ newEvents d.trace (processMsg e d).trace ∧
    Event.deliverRemote ∉ newEvents d.trace (processMsg e d).trace := by
  have hp : processMsg e d = bounce e "bounced by admin"
      { d with
        qMsg := { q with Status := 0 }
        rawData := some t
        qStore := true
        trace := d.trace ++
          [Event.updateFromDb q0.Key, Event.saveInDb { q with Status := 0 },
           Event.storeNew, Event.storeGet q.Key, Event.storeRead] } := by
    unfold processMsg
    simp [hdec, hfound, hstatus, hnew, hget, hread, Delivery.emit]
  refine ⟨⟨by simp [requeue, Delivery.emit], by simp [requeue, requeuedRecord, Delivery.emit]⟩,
    hp, ?_⟩
  rw [hp]
  have hb := bounce_issuesOne e "bounced by admin"
      { d with
        qMsg := { q with Status := 0 }
        rawData := some t
        qStore := true
        trace := d.trace ++
          [Event.updateFromDb q0.Key, Event.saveInDb { q with Status := 0 },
           Event.storeNew, Event.storeGet q.Key, Event.storeRead] }
  have hn := bounce_no_delivery e "bounced by admin"
      { d with
        qMsg := { q with Status := 0 }
        rawData := some t
        qStore := true
        trace := d.trace ++
          [Event.updateFromDb q0.Key, Event.saveInDb { q with Status := 0 },
           Event.storeNew, Event.storeGet q.Key, Event.storeRead] }
  generalize bounce e "bounced by admin" _ = r at hb hn ⊢
  obtain ⟨hb1, _⟩ := hb
  dsimp only at hb1 hn
  generalize newEvents _ r.trace = n at hb1 hn
  rw [hb1, List.append_assoc, newEvents_append]
  simp [hn.1, hn.2]

/-- C20 at a concrete input: the sample record reloaded with Status 3. -/
theorem retried_bounce_uses_fixed_reason_witness :
    processMsg (envMarked 3) sampleJob = bounce (envMarked 3) "bounced by admin"
      { sampleJob with
        qMsg := { sampleRecord with Status := 0 }
        rawData := some "raw mail"
        qStore := true
        trace := sampleJob.trace ++
          [Event.updateFromDb "7f88b728", Event.saveInDb { sampleRecord with Status := 0 },
           Event.storeNew, Event.storeGet "7f88b728", Event.storeRead] } :=
  (retried_bounce_uses_fixed_reason envOk sampleJob (envMarked 3) sampleJob sampleRecord
    { sampleRecord with Status := 3 } "raw mail" rfl rfl rfl rfl rfl rfl).2.1

/-! ## C14 : address families of the dialled pairs -/

/-- Every dial of the inner loop is between addresses of the same family, and
a client it returns comes from one of these dials. -/
theorem dialRemotes_sound (n : NetEnv) (ix : Nat) (route : Route) (lIp : IP)
    (remotes : List TCPAddr) :
    (∀ a ∈ (dialRemotes n ix route lIp remotes).1,
      n.isIpV4 (n.ipString a.localIp) = n.isIpV4 (n.ipString a.remote.IP)) ∧
    (∀ c, (dialRemotes n ix route lIp remotes).2 = some c →
      ∃ a ∈ (dialRemotes n ix route lIp remotes).1,
        n.dial a.routeIx a.remote (n.ipString a.localIp) = Except.ok c ∧ a.route = route) := by
  induction remotes with
  | nil => simp [dialRemotes]
  | cons ra rest ih =>
    unfold dialRemotes
    by_cases hf : (n.isIpV4 (n.ipString lIp) != n.isIpV4 (n.ipString ra.IP)) = true
    · rw [if_pos hf]; exact ih
    · rw [if_neg hf]
      have hfam : n.isIpV4 (n.ipString lIp) = n.isIpV4 (n.ipString ra.IP) := by
        simpa using hf
      cases hd : n.dial ix ra (n.ipString lIp) with
      | ok c =>
        refine ⟨?_, ?_⟩
        · intro a ha
          simp only [List.mem_singleton] at ha
          subst ha
          exact hfam
        · intro c1 hc1
          simp only [Option.some.injEq] at hc1
          subst hc1
          exact ⟨_, List.mem_singleton.mpr rfl, hd, rfl⟩
      | error msg =>
        refine ⟨?_, ?_⟩
        · intro a ha
          simp only [List.mem_cons] at ha
          rcases ha with ha | ha
          · subst ha; exact hfam
          · exact ih.1 a ha
        · intro c1 hc1
          obtain ⟨a, ha, hda⟩ := ih.2 c1 hc1
          exact ⟨a, List.mem_cons_of_mem _ ha, hda⟩

/-- Every dial of the two nested loops is between addresses of the same family, and
a client they return comes from one of these dials. -/
theorem dialLocals_sound (n : NetEnv) (ix : Nat) (route : Route) (remotes : List TCPAddr)
    (localIps : List IP) :
    (∀ a ∈ (dialLocals n ix route remotes localIps).1,
      n.isIpV4 (n.ipString a.localIp) = n.isIpV4 (n.ipString a.remote.IP)) ∧
    (∀ c, (dialLocals n ix route remotes localIps).2 = some c →
      ∃ a ∈ (dialLocals n ix route remotes localIps).1,
        n.dial a.routeIx a.remote (n.ipString a.localIp) = Except.ok c ∧ a.route = route) := by
  induction localIps with
  | nil => simp [dialLocals]
  | cons lIp rest ih =>
    unfold dialLocals
    have hr := dialRemotes_sound n ix route lIp remotes
    rcases hdr : dialRemotes n ix route lIp remotes with ⟨ds, oc⟩
    rw [hdr] at hr
    cases oc with
    | some c => exact hr
    | none =>
      refine ⟨?_, ?_⟩
      · intro a ha
        simp only [List.mem_append] at ha
        rcases ha with ha | ha
        · exact hr.1 a ha
        · exact ih.1 a ha
      · intro c1 hc1
        obtain ⟨a, ha, hda⟩ := ih.2 c1 hc1
        exact ⟨a, List.mem_append_right _ ha, hda⟩

/-- Evaluation step: the route mixes `&` and `|`. -/
theorem getSmtpClientFrom_mixed (n : NetEnv) (ix : Nat) (route : Route) (rest : List Route)
    (hmix : (route.failover && route.roundRobin) = true) :
    getSmtpClientFrom n ix (route :: rest) =
      { client := none, route := some route,
        err := some ("mixing & and | are not allowed in localIP routes: " ++ route.LocalIp),
        dials := [], lookups := [] } := by
  unfold getSmtpClientFrom
  rw [if_pos hmix]

/-- Evaluation step: a local address string is rejected by `net.ParseIP`. -/
theorem getSmtpClientFrom_invalid (n : NetEnv) (ix : Nat) (route : Route) (rest : List Route)
    (bad : String)
    (hmix : (route.failover && route.roundRobin) = false)
    (hloc : parseLocalIps n (localIpStrings n ix route) = Except.error bad) :
    getSmtpClientFrom n ix (route :: rest) =
      { client := none, route := some route,
        err := some ("invalid IP " ++ bad ++ " found in localIp routes: " ++ route.LocalIp),
        dials := [], lookups := [] } := by
  unfold getSmtpClientFrom
  simp [hmix, hloc]

/-- Evaluation step: the remote host does not resolve. -/
theorem getSmtpClientFrom_unresolved (n : NetEnv) (ix : Nat) (route : Route) (rest : List Route)
    (localIps : List IP) (err : String)
    (hmix : (route.failover && route.roundRobin) = false)
    (hloc : parseLocalIps n (localIpStrings n ix route) = Except.ok localIps)
    (hrem : remoteAddresses n ix route = Except.error err) :
    getSmtpClientFrom n ix (route :: rest) =
      { client := none, route := some route, err := some err,
        dials := [], lookups := remoteLookups n ix route } := by
  unfold getSmtpClientFrom
  simp [hmix, hloc, hrem]

/-- Evaluation step: a dial of the route succeeds. -/
theorem getSmtpClientFrom_connected (n : NetEnv) (ix : Nat) (route : Route) (rest : List Route)
    (localIps : List IP) (remotes : List TCPAddr) (ds : List DialAttempt) (c : Client)
    (hmix : (route.failover && route.roundRobin) = false)
    (hloc : parseLocalIps n (localIpStrings n ix route) = Except.ok localIps)
    (hrem : remoteAddresses n ix route = Except.ok remotes)
    (hdl : dialLocals n ix route remotes localIps = (ds, some c)) :
    getSmtpClientFrom n ix (route :: rest) =
      { client := some c, route := some route, err := none,
        dials := ds, lookups := remoteLookups n ix route } := by
  unfold getSmtpClientFrom
  simp [hmix, hloc, hrem, hdl]

/-- Evaluation step: no dial of the route succeeds, the next route is evaluated. -/
theorem getSmtpClientFrom_next (n : NetEnv) (ix : Nat) (route : Route) (rest : List Route)
    (localIps : List IP) (remotes : List TCPAddr) (ds : List DialAttempt)
    (hmix : (route.failover && route.roundRobin) = false)
    (hloc : parseLocalIps n (localIpStrings n ix route) = Except.ok localIps)
    (hrem : remoteAddresses n ix route = Except.ok remotes)
    (hdl : dialLocals n ix route remotes localIps = (ds, none)) :
    getSmtpClientFrom n ix (route :: rest) =
      { client := (getSmtpClientFrom n (ix + 1) rest).client
        route := (getSmtpClientFrom n (ix + 1) rest).route
        err := (getSmtpClientFrom n (ix + 1) rest).err
        dials := ds ++ (getSmtpClientFrom n (ix + 1) rest).dials
        lookups := remoteLookups n ix route ++ (getSmtpClientFrom n (ix + 1) rest).lookups } := by
  rw [getSmtpClientFrom]
  simp [hmix, hloc, hrem, hdl]

/-- The same for the whole resolver, from any position on. -/
theorem getSmtpClientFrom_sound (n : NetEnv) (routes : List Route) :
    ∀ ix : Nat,
    (∀ a ∈ (getSmtpClientFrom n ix routes).dials,
      n.isIpV4 (n.ipString a.localIp) = n.isIpV4 (n.ipString a.remote.IP)) ∧
    (∀ c, (getSmtpClientFrom n ix routes).client = some c →
      ∃ a ∈ (getSmtpClientFrom n ix routes).dials,
        n.dial a.routeIx a.remote (n.ipString a.localIp) = Except.ok c ∧
        (getSmtpClientFrom n ix routes).route = some a.route) := by
  induction routes with
  | nil => intro ix; simp [getSmtpClientFrom]
  | cons route rest ih =>
    intro ix
    cases hmix : (route.failover && route.roundRobin) with
    | true => rw [getSmtpClientFrom_mixed n ix route rest hmix]; simp
    | false =>
      cases hloc : parseLocalIps n (localIpStrings n ix route) with
      | error bad => rw [getSmtpClientFrom_invalid n ix route rest bad hmix hloc]; simp
      | ok localIps =>
        cases hrem : remoteAddresses n ix route with
        | error err =>
          rw [getSmtpClientFrom_unresolved n ix route rest localIps err hmix hloc hrem]; simp
        | ok remotes =>
          have hl := dialLocals_sound n ix route remotes localIps
          rcases hdl : dialLocals n ix route remotes localIps with ⟨ds, oc⟩
          rw [hdl] at hl
          cases oc with
          | some c =>
            rw [getSmtpClientFrom_connected n ix route rest localIps remotes ds c hmix hloc
              hrem hdl]
            refine ⟨hl.1, ?_⟩
            intro c1 hc1
            obtain ⟨a, ha, hda, hroute⟩ := hl.2 c1 (by simpa using hc1)
            exact ⟨a, ha, hda, by rw [hroute]⟩
          | none =>
            rw [getSmtpClientFrom_next n ix route rest localIps remotes ds hmix hloc hrem hdl]
            refine ⟨?_, ?_⟩
            · intro a ha
              simp only [List.mem_append] at ha
              rcases ha with ha | ha
              · exact hl.1 a ha
              · exact (ih (ix + 1)).1 a ha
            · intro c1 hc1
              obtain ⟨a, ha, hda⟩ := (ih (ix + 1)).2 c1 hc1
              exact ⟨a, List.mem_append_right _ ha, hda⟩

/-- C14: for every route list and every answer of DNS, of `rand.Perm` and of
the dials, every dial that `getSmtpClient` attempts is between a local and a
remote address that `IsIpV4` puts in the same family, and a client it returns
was obtained from one of these dials, for the route it returns. -/
theorem getSmtpClient_dials_same_family (n : NetEnv) (routes : List Route) :
    (∀ a ∈ (getSmtpClient n routes).dials,
      n.isIpV4 (n.ipString a.localIp) = n.isIpV4 (n.ipString a.remote.IP)) ∧
    (∀ c, (getSmtpClient n routes).client = some c →
      ∃ a ∈ (getSmtpClient n routes).dials,
        n.isIpV4 (n.ipString a.localIp) = n.isIpV4 (n.ipString a.remote.IP) ∧
        n.dial a.routeIx a.remote (n.ipString a.localIp) = Except.ok c ∧
        (getSmtpClient n routes).route = some a.route) := by
  have h := getSmtpClientFrom_sound n routes 0
  refine ⟨h.1, ?_⟩
  intro c hc
  obtain ⟨a, ha, hda, hroute⟩ := h.2 c hc
  exact ⟨a, ha, h.1 a ha, hda, hroute⟩

/-- C14 at a concrete input: with an IPv6 and an IPv4 remote address, the
only dial from `1.2.3.4` goes to the IPv4 address `9.9.9.9`. -/
theorem getSmtpClient_dials_same_family_witness :
    (getSmtpClient netOk [failoverRoute]).dials =
      [{ routeIx := 0, route := failoverRoute, localIp := { bytes := [1, 2, 3, 4] },
         remote := { IP := { bytes := [9, 9, 9, 9] }, Port := 25 } }] ∧
    ∀ a ∈ (getSmtpClient netOk [failoverRoute]).dials,
      netOk.isIpV4 (netOk.ipString a.localIp) = netOk.isIpV4 (netOk.ipString a.remote.IP) :=
  ⟨by decide, (getSmtpClient_dials_same_family netOk [failoverRoute]).1⟩

/-! ## C15 : order of the local addresses of a failover route -/

/-- C15 (the code at the failing input): for the failover route
`1.2.3.4&5.6.7.8`, when `rand.Perm(2)` returns `[1, 0]` the split strings are
moved as for a round-robin route: the first and only dial is sourced from
`5.6.7.8`, not from the first declared address `1.2.3.4`. -/
theorem getSmtpClient_failover_route_is_shuffled :
    failoverRoute.failover = true ∧ failoverRoute.roundRobin = false ∧
    splitLocalIp failoverRoute = ["1.2.3.4", "5.6.7.8"] ∧
    localIpStrings netSwap 0 failoverRoute = ["5.6.7.8", "1.2.3.4"] ∧
    (getSmtpClient netSwap [failoverRoute]).dials =
      [{ routeIx := 0, route := failoverRoute, localIp := { bytes := [5, 6, 7, 8] },
         remote := { IP := { bytes := [9, 9, 9, 9] }, Port := 25 } }] ∧
    (getSmtpClient netSwap [failoverRoute]).client = some { conn := "5.6.7.8->9.9.9.9" } := by
  refine ⟨by decide, by decide, by decide, by decide, by decide, by decide⟩

/-! ## C16 : the first successful dial wins -/

theorem firstSuccess_cons (n : NetEnv) (a : DialAttempt) (cs : List DialAttempt) :
    firstSuccess n (a :: cs) = if dialSucceeds n a = true then some a else firstSuccess n cs := by
  unfold firstSuccess
  rw [List.find?_cons]
  cases dialSucceeds n a <;> simp

theorem attempted_cons (n : NetEnv) (a : DialAttempt) (cs : List DialAttempt) :
    attempted n (a :: cs) = if dialSucceeds n a = true then [a] else a :: attempted n cs := by
  unfold attempted
  rw [firstSuccess_cons, List.takeWhile_cons]
  cases dialSucceeds n a <;> simp

theorem firstSuccess_append (n : NetEnv) (xs ys : List DialAttempt) :
    firstSuccess n (xs ++ ys) =
      if (firstSuccess n xs).isSome = true then firstSuccess n xs else firstSuccess n ys := by
  induction xs with
  | nil => simp [firstSuccess]
  | cons a xs ih =>
    rw [List.cons_append, firstSuccess_cons, firstSuccess_cons]
    cases dialSucceeds n a <;> simp [ih]

theorem attempted_append (n : NetEnv) (xs ys : List DialAttempt) :
    attempted n (xs ++ ys) =
      if (firstSuccess n xs).isSome = true then attempted n xs else attempted n xs ++ attempted n ys := by
  induction xs with
  | nil => simp [firstSuccess, attempted]
  | cons a xs ih =>
    rw [List.cons_append, attempted_cons, attempted_cons, firstSuccess_cons]
    cases dialSucceeds n a
    · simp only [Bool.false_eq_true, if_false, ih]
      split <;> simp
    · simp

/-- The dial of the first successful pair yields a client. -/
theorem firstSuccess_client (n : NetEnv) (cs : List DialAttempt) (a : DialAttempt)
    (h : firstSuccess n cs = some a) : ∃ c, dialClient n a = some c := by
  have hs : dialSucceeds n a = true := List.find?_some h
  unfold dialSucceeds at hs
  unfold dialClient
  cases hd : n.dial a.routeIx a.remote (n.ipString a.localIp) with
  | ok c => exact ⟨c, rfl⟩
  | error msg => rw [hd] at hs; cases hs

/-- The inner loop dials the same-family pairs of one local address in order
up to the first success. -/
theorem dialRemotes_eq (n : NetEnv) (ix : Nat) (route : Route) (lIp : IP)
    (remotes : List TCPAddr) :
    dialRemotes n ix route lIp remotes =
      (attempted n ((remotes.filter (sameFamily n lIp)).map
          (fun ra => { routeIx := ix, route := route, localIp := lIp, remote := ra })),
       (firstSuccess n ((remotes.filter (sameFamily n lIp)).map
          (fun ra => { routeIx := ix, route := route, localIp := lIp, remote := ra }))).bind
        (dialClient n)) := by
  induction remotes with
  | nil => simp [dialRemotes, attempted, firstSuccess]
  | cons ra rest ih =>
    unfold dialRemotes
    by_cases hf : (n.isIpV4 (n.ipString lIp) != n.isIpV4 (n.ipString ra.IP)) = true
    · have hsf : sameFamily n lIp ra = false := by
        unfold sameFamily
        simpa using hf
      rw [if_pos hf, ih, List.filter_cons_of_neg (by simp [hsf])]
    · have hsf : sameFamily n lIp ra = true := by
        unfold sameFamily
        simpa using hf
      rw [if_neg hf, List.filter_cons_of_pos hsf, List.map_cons, attempted_cons,
        firstSuccess_cons]
      cases hd : n.dial ix ra (n.ipString lIp) with
      | ok c => simp [dialSucceeds, dialClient, hd]
      | error msg => simp [dialSucceeds, hd, ih]

/-- The two nested loops dial the same-family pairs of the route in order up
to the first success. -/
theorem dialLocals_eq (n : NetEnv) (ix : Nat) (route : Route) (remotes : List TCPAddr)
    (localIps : List IP) :
    dialLocals n ix route remotes localIps =
      (attempted n (localCandidates n ix route remotes localIps),
       (firstSuccess n (localCandidates n ix route remotes localIps)).bind (dialClient n)) := by
  induction localIps with
  | nil => simp [dialLocals, localCandidates, attempted, firstSuccess]
  | cons lIp rest ih =>
    unfold dialLocals localCandidates
    rw [dialRemotes_eq, attempted_append, firstSuccess_append]
    cases hfs : firstSuccess n ((remotes.filter (sameFamily n lIp)).map
        (fun ra => { routeIx := ix, route := route, localIp := lIp, remote := ra })) with
    | none => simp [ih]
    | some a =>
      obtain ⟨c, hc⟩ := firstSuccess_client n _ a hfs
      simp [hc]

theorem localCandidates_route (n : NetEnv) (ix : Nat) (route : Route) (remotes : List TCPAddr)
    (localIps : List IP) :
    ∀ a ∈ localCandidates n ix route remotes localIps, a.route = route ∧ a.routeIx = ix := by
  induction localIps with
  | nil => simp [localCandidates]
  | cons lIp rest ih =>
    intro a ha
    unfold localCandidates at ha
    simp only [List.mem_append, List.mem_map] at ha
    rcases ha with ⟨ra, _, rfl⟩ | ha
    · exact ⟨rfl, rfl⟩
    · exact ih a ha

/-- The resolver dials the same-family pairs of well-formed routes in order up
to the first success, from any position on. -/
theorem getSmtpClientFrom_eq (n : NetEnv) (routes : List Route) :
    ∀ ix : Nat, (∀ k r, routes[k]? = some r → WellFormed n (ix + k) r) →
    (getSmtpClientFrom n ix routes).dials = attempted n (candidatesFrom n ix routes) ∧
    (getSmtpClientFrom n ix routes).client =
      (firstSuccess n (candidatesFrom n ix routes)).bind (dialClient n) ∧
    (getSmtpClientFrom n ix routes).route =
      (firstSuccess n (candidatesFrom n ix routes)).map DialAttempt.route ∧
    (getSmtpClientFrom n ix routes).err =
      if (firstSuccess n (candidatesFrom n ix routes)).isSome = true then none
      else some "deliverd.getSmtpClient: unable to get a client, all routes have been tested" := by
  induction routes with
  | nil =>
    intro ix _
    simp [getSmtpClientFrom, candidatesFrom, attempted, firstSuccess]
  | cons route rest ih =>
    intro ix hwf
    obtain ⟨hmix, ⟨localIps, hloc⟩, ⟨remotes, hrem⟩⟩ := hwf 0 route (by simp)
    simp only [Nat.add_zero] at hloc hrem
    have hrest := ih (ix + 1) (fun k r hk => by
      have := hwf (k + 1) r (by simpa using hk)
      rwa [show ix + (k + 1) = ix + 1 + k by omega] at this)
    have hcand : routeCandidates n ix route = localCandidates n ix route remotes localIps := by
      unfold routeCandidates
      rw [hloc, hrem]
    have hdl := dialLocals_eq n ix route remotes localIps
    unfold candidatesFrom
    rw [hcand, attempted_append, firstSuccess_append]
    cases hfs : firstSuccess n (localCandidates n ix route remotes localIps) with
    | none =>
      rw [hfs] at hdl
      rw [getSmtpClientFrom_next n ix route rest localIps remotes _ hmix hloc hrem hdl]
      obtain ⟨h1, h2, h3, h4⟩ := hrest
      simp [h1, h2, h3, h4]
    | some a =>
      obtain ⟨c, hc⟩ := firstSuccess_client n _ a hfs
      rw [hfs] at hdl
      rw [show (some a).bind (dialClient n) = some c from hc] at hdl
      rw [getSmtpClientFrom_connected n ix route rest localIps remotes _ c hmix hloc hrem hdl]
      have hroute : a.route = route :=
        (localCandidates_route n ix route remotes localIps a
          (List.mem_of_find?_eq_some hfs)).1
      simp [hc, hroute]

/-- C16: when every route parses and resolves, `getSmtpClient` dials the
same-family pairs in the order of the routes, then of the local addresses
(as left by the ordering step), then of the remote addresses, up to and
including the first pair whose dial succeeds and no further; it returns the
client of that pair and the route of that pair, without error. When no pair
succeeds (also for an empty route list) it returns no client, no route and the
error that all routes have been tested. -/
theorem getSmtpClient_first_success (n : NetEnv) (routes : List Route)
    (hwf : ∀ k r, routes[k]? = some r → WellFormed n k r) :
    (getSmtpClient n routes).dials = attempted n (candidatesFrom n 0 routes) ∧
    (getSmtpClient n routes).client =
      (firstSuccess n (candidatesFrom n 0 routes)).bind (dialClient n) ∧
    (getSmtpClient n routes).client.isSome = (firstSuccess n (candidatesFrom n 0 routes)).isSome ∧
    (getSmtpClient n routes).route =
      (firstSuccess n (candidatesFrom n 0 routes)).map DialAttempt.route ∧
    (getSmtpClient n routes).err =
      if (firstSuccess n (candidatesFrom n 0 routes)).isSome = true then none
      else some "deliverd.getSmtpClient: unable to get a client, all routes have been tested" := by
  obtain ⟨h1, h2, h3, h4⟩ := getSmtpClientFrom_eq n routes 0 (fun k r hk => by
    rw [Nat.zero_add]; exact hwf k r hk)
  refine ⟨h1, h2, ?_, h3, h4⟩
  unfold getSmtpClient
  rw [h2]
  cases hfs : firstSuccess n (candidatesFrom n 0 routes) with
  | none => rfl
  | some a =>
    obtain ⟨c, hc⟩ := firstSuccess_client n _ a hfs
    simp [hc]

/-- C16 at the spec's scenario: the route `1.2.3.4&5.6.7.8` with every dial from
`1.2.3.4` failing: the connection from `5.6.7.8` is returned, with the route. -/
theorem getSmtpClient_first_success_witness :
    (getSmtpClient netFirstLocalDown [failoverRoute]).dials =
      attempted netFirstLocalDown (candidatesFrom netFirstLocalDown 0 [failoverRoute]) ∧
    (getSmtpClient netFirstLocalDown [failoverRoute]).client =
      some { conn := "5.6.7.8->9.9.9.9" } ∧
    (getSmtpClient netFirstLocalDown [failoverRoute]).route = some failoverRoute :=
  have h := getSmtpClient_first_success netFirstLocalDown [failoverRoute] (fun k r hk => by
    cases k with
    | zero =>
      simp only [List.getElem?_cons_zero, Option.some.injEq] at hk
      subst hk
      exact ⟨by decide, ⟨_, rfl⟩, ⟨_, rfl⟩⟩
    | succ k => simp at hk)
  ⟨h.1, by decide, by decide⟩

/-! ## C17 : a defective route -/

theorem foldl_set_length (ps : List (Nat × String)) :
    ∀ acc : List String,
      (ps.foldl (fun acc p => acc.set p.1 p.2) acc).length = acc.length := by
  induction ps with
  | nil => intro acc; rfl
  | cons q qs ih => intro acc; rw [List.foldl_cons, ih, List.length_set]

theorem foldl_set_getElem?_of_not_mem (ps : List (Nat × String)) (v : Nat) :
    ∀ acc : List String, v ∉ ps.map Prod.fst →
      (ps.foldl (fun acc p => acc.set p.1 p.2) acc)[v]? = acc[v]? := by
  induction ps with
  | nil => intro acc _; rfl
  | cons q qs ih =>
    intro acc hv
    simp only [List.map_cons, List.mem_cons, not_or] at hv
    rw [List.foldl_cons, ih _ hv.2, List.getElem?_set_ne (Ne.symm hv.1)]

theorem foldl_set_getElem?_of_mem (ps : List (Nat × String)) :
    ∀ acc : List String, (ps.map Prod.fst).Nodup → (∀ p ∈ ps, p.1 < acc.length) →
      ∀ p ∈ ps, (ps.foldl (fun acc p => acc.set p.1 p.2) acc)[p.1]? = some p.2 := by
  induction ps with
  | nil => intro acc _ _ p hp; cases hp
  | cons q qs ih =>
    intro acc hnd hlt p hp
    simp only [List.map_cons, List.nodup_cons] at hnd
    rw [List.foldl_cons]
    rcases List.mem_cons.mp hp with rfl | hp
    · rw [foldl_set_getElem?_of_not_mem qs p.1 _ hnd.1,
        List.getElem?_set_self (hlt p (List.mem_cons_self _ _))]
    · refine ih _ hnd.2 ?_ p hp
      intro p1 hp1
      rw [List.length_set]
      exact hlt p1 (List.mem_cons_of_mem _ hp1)

/-- When `perm` is a permutation of the positions, the reordering loses no string. -/
theorem mem_shuffle (perm : List Nat) (sIps : List String)
    (hperm : perm.Perm (List.range sIps.length)) (s : String) (hs : s ∈ sIps) :
    s ∈ shuffle perm sIps := by
  have hlen : perm.length = sIps.length := by
    rw [hperm.length_eq, List.length_range]
  have hnd : perm.Nodup := (hperm.nodup_iff).mpr (List.nodup_range _)
  have hlt : ∀ v ∈ perm, v < sIps.length := fun v hv =>
    List.mem_range.mp ((hperm.mem_iff).mp hv)
  obtain ⟨i, hi, hget⟩ := List.mem_iff_getElem.mp hs
  have hi2 : i < perm.length := by omega
  have hz : (perm.zip sIps)[i]? = some (perm[i], s) := by
    rw [List.getElem?_zip_eq_some]
    exact ⟨List.getElem?_eq_getElem hi2, by rw [List.getElem?_eq_getElem hi, hget]⟩
  have hmem : (perm[i], s) ∈ perm.zip sIps := List.getElem?_mem hz
  have hfst : (perm.zip sIps).map Prod.fst = perm :=
    List.map_fst_zip perm sIps (by omega)
  have hres := foldl_set_getElem?_of_mem (perm.zip sIps) (List.replicate sIps.length "")
    (by rw [hfst]; exact hnd)
    (by
      intro p hp
      rw [List.length_replicate]
      exact hlt p.1 (by rw [← hfst]; exact List.mem_map_of_mem Prod.fst hp))
    (perm[i], s) hmem
  exact List.getElem?_mem hres

/-- A split string is still among the strings that are parsed. -/
theorem mem_localIpStrings (n : NetEnv) (ix : Nat) (route : Route)
    (hperm : (n.perm ix (splitLocalIp route).length).Perm
      (List.range (splitLocalIp route).length))
    (s : String) (hs : s ∈ splitLocalIp route) : s ∈ localIpStrings n ix route := by
  unfold localIpStrings
  unfold splitLocalIp at hs hperm
  split
  · rename_i h
    rw [if_pos h] at hs
    exact hs
  · rename_i h
    rw [if_neg h] at hs hperm
    exact mem_shuffle _ _ hperm s hs

/-- The parsing loop stops with an error when one of the strings is no IP literal. -/
theorem parseLocalIps_invalid (n : NetEnv) (strs : List String)
    (h : ∃ s ∈ strs, n.parseIP s = none) :
    ∃ bad, n.parseIP bad = none ∧ parseLocalIps n strs = Except.error bad := by
  induction strs with
  | nil => obtain ⟨s, hs, _⟩ := h; cases hs
  | cons x xs ih =>
    unfold parseLocalIps
    cases hx : n.parseIP x with
    | none => exact ⟨x, hx, rfl⟩
    | some ip =>
      obtain ⟨s, hs, hsn⟩ := h
      rcases List.mem_cons.mp hs with rfl | hs
      · rw [hx] at hsn; cases hsn
      · obtain ⟨bad, hb, hp⟩ := ih ⟨s, hs, hsn⟩
        exact ⟨bad, hb, by simp [hp]⟩

theorem attempted_of_none (n : NetEnv) (cs : List DialAttempt)
    (h : firstSuccess n cs = none) : attempted n cs = cs := by
  induction cs with
  | nil => simp [attempted, firstSuccess]
  | cons a cs ih =>
    rw [firstSuccess_cons] at h
    rw [attempted_cons]
    cases hd : dialSucceeds n a with
    | true => rw [hd] at h; simp at h
    | false =>
      rw [hd] at h
      simp only [Bool.false_eq_true, if_false] at h ⊢
      rw [ih h]

theorem candidatesFrom_routeIx (n : NetEnv) (routes : List Route) :
    ∀ ix : Nat, ∀ a ∈ candidatesFrom n ix routes, ix ≤ a.routeIx ∧ a.routeIx < ix + routes.length := by
  induction routes with
  | nil => intro ix a ha; cases ha
  | cons route rest ih =>
    intro ix a ha
    unfold candidatesFrom at ha
    rcases List.mem_append.mp ha with ha | ha
    · have hix : a.routeIx = ix := by
        unfold routeCandidates at ha
        split at ha
        · exact (localCandidates_route n ix route _ _ a ha).2
        · cases ha
      rw [hix, List.length_cons]
      omega
    · have := ih (ix + 1) a ha
      rw [List.length_cons]
      omega

theorem remoteLookups_routeIx (n : NetEnv) (ix : Nat) (route : Route) :
    ∀ l ∈ remoteLookups n ix route, l.1 = ix := by
  intro l hl
  unfold remoteLookups at hl
  split at hl
  · cases hl
  · rw [List.mem_singleton.mp hl]

/-- The resolver on a list whose first defective route comes after routes
that were evaluated without a connection, from any position on. -/
theorem getSmtpClientFrom_defective (n : NetEnv) (post : List Route) (r : Route)
    (pre : List Route) :
    ∀ ix : Nat, (∀ k p, pre[k]? = some p → WellFormed n (ix + k) p) →
    firstSuccess n (candidatesFrom n ix pre) = none →
    (n.perm (ix + pre.length) (splitLocalIp r).length).Perm
      (List.range (splitLocalIp r).length) →
    ((r.failover && r.roundRobin) = true ∨ ∃ s ∈ splitLocalIp r, n.parseIP s = none) →
    (getSmtpClientFrom n ix (pre ++ r :: post)).client = none ∧
    (getSmtpClientFrom n ix (pre ++ r :: post)).route = some r ∧
    ((getSmtpClientFrom n ix (pre ++ r :: post)).err =
        some ("mixing & and | are not allowed in localIP routes: " ++ r.LocalIp) ∨
      ∃ bad, n.parseIP bad = none ∧
        (getSmtpClientFrom n ix (pre ++ r :: post)).err =
          some ("invalid IP " ++ bad ++ " found in localIp routes: " ++ r.LocalIp)) ∧
    (getSmtpClientFrom n ix (pre ++ r :: post)).dials = candidatesFrom n ix pre ∧
    (∀ l ∈ (getSmtpClientFrom n ix (pre ++ r :: post)).lookups, l.1 < ix + pre.length) := by
  induction pre with
  | nil =>
    intro ix _ _ hperm hdef
    rw [List.length_nil, Nat.add_zero] at hperm
    rw [List.nil_append]
    cases hmix : (r.failover && r.roundRobin) with
    | true =>
      rw [getSmtpClientFrom_mixed n ix r post hmix]
      simp [candidatesFrom]
    | false =>
      have hbad : ∃ s ∈ splitLocalIp r, n.parseIP s = none := by
        rcases hdef with h | h
        · rw [hmix] at h; cases h
        · exact h
      obtain ⟨s, hs, hsn⟩ := hbad
      obtain ⟨bad, hb, hp⟩ := parseLocalIps_invalid n (localIpStrings n ix r)
        ⟨s, mem_localIpStrings n ix r hperm s hs, hsn⟩
      rw [getSmtpClientFrom_invalid n ix r post bad hmix hp]
      refine ⟨rfl, rfl, Or.inr ⟨bad, hb, rfl⟩, by simp [candidatesFrom], by simp⟩
  | cons p pre ih =>
    intro ix hwf hnone hperm hdef
    obtain ⟨hmix, ⟨localIps, hloc⟩, ⟨remotes, hrem⟩⟩ := hwf 0 p (by simp)
    simp only [Nat.add_zero] at hloc hrem
    have hcand : routeCandidates n ix p = localCandidates n ix p remotes localIps := by
      unfold routeCandidates
      rw [hloc, hrem]
    unfold candidatesFrom at hnone
    rw [hcand, firstSuccess_append] at hnone
    have hn1 : firstSuccess n (localCandidates n ix p remotes localIps) = none := by
      cases hfs : firstSuccess n (localCandidates n ix p remotes localIps) with
      | none => rfl
      | some a => rw [hfs] at hnone; simp at hnone
    have hn2 : firstSuccess n (candidatesFrom n (ix + 1) pre) = none := by
      rw [hn1] at hnone; simpa using hnone
    have hdl := dialLocals_eq n ix p remotes localIps
    rw [hn1, attempted_of_none n _ hn1] at hdl
    have hrest := ih (ix + 1)
      (fun k q hk => by
        have := hwf (k + 1) q (by simpa using hk)
        rwa [show ix + (k + 1) = ix + 1 + k by omega] at this)
      hn2
      (by rwa [show ix + 1 + pre.length = ix + (p :: pre).length by
        rw [List.length_cons]; omega])
      hdef
    obtain ⟨h1, h2, h3, h4, h5⟩ := hrest
    rw [List.cons_append,
      getSmtpClientFrom_next n ix p (pre ++ r :: post) localIps remotes _ hmix hloc hrem hdl]
    refine ⟨h1, h2, h3, ?_, ?_⟩
    · show _ ++ (getSmtpClientFrom n (ix + 1) (pre ++ r :: post)).dials = _
      rw [h4]
      conv_rhs => unfold candidatesFrom
      rw [hcand]
    · intro l hl
      rw [List.length_cons]
      rcases List.mem_append.mp hl with hl | hl
      · rw [remoteLookups_routeIx n ix p l hl]; omega
      · have := h5 l hl
        omega

/-- C17: when the routes before `r` are all evaluated without error and none
of their pairs dials successfully, and `r` either mixes `&` and `|` in its
local-IP field or has a split address string that is no IP literal
(`rand.Perm` returning a permutation), `getSmtpClient` returns no client, the
route `r` and an error (the mixing error, or the invalid-IP error for a string
that `net.ParseIP` rejects). The dials made are exactly the pairs of the
earlier routes: none is made for `r` or for a later route, and no DNS lookup is
made for `r` or for a later route. -/
theorem getSmtpClient_defective_route (n : NetEnv) (pre post : List Route) (r : Route)
    (hpre : ∀ k p, pre[k]? = some p → WellFormed n k p)
    (hnone : firstSuccess n (candidatesFrom n 0 pre) = none)
    (hperm : (n.perm pre.length (splitLocalIp r).length).Perm
      (List.range (splitLocalIp r).length))
    (hdef : (r.failover = true ∧ r.roundRobin = true) ∨
      ∃ s ∈ splitLocalIp r, n.parseIP s = none) :
    (getSmtpClient n (pre ++ r :: post)).client = none ∧
    (getSmtpClient n (pre ++ r :: post)).route = some r ∧
    ((getSmtpClient n (pre ++ r :: post)).err =
        some ("mixing & and | are not allowed in localIP routes: " ++ r.LocalIp) ∨
      ∃ bad, n.parseIP bad = none ∧
        (getSmtpClient n (pre ++ r :: post)).err =
          some ("invalid IP " ++ bad ++ " found in localIp routes: " ++ r.LocalIp)) ∧
    (getSmtpClient n (pre ++ r :: post)).dials = candidatesFrom n 0 pre ∧
    (∀ a ∈ (getSmtpClient n (pre ++ r :: post)).dials, a.routeIx < pre.length) ∧
    (∀ l ∈ (getSmtpClient n (pre ++ r :: post)).lookups, l.1 < pre.length) := by
  have h := getSmtpClientFrom_defective n post r pre 0
    (fun k p hk => by rw [Nat.zero_add]; exact hpre k p hk) hnone
    (by rwa [Nat.zero_add])
    (by
      rcases hdef with ⟨h1, h2⟩ | h
      · exact Or.inl (by rw [h1, h2]; rfl)
      · exact Or.inr h)
  obtain ⟨h1, h2, h3, h4, h5⟩ := h
  unfold getSmtpClient
  refine ⟨h1, h2, h3, h4, ?_, ?_⟩
  · intro a ha
    rw [h4] at ha
    have := candidatesFrom_routeIx n pre 0 a ha
    omega
  · intro l hl
    have := h5 l hl
    omega

/-- C17 at a concrete input: a mixed route after a route whose only dial fails. -/
theorem getSmtpClient_defective_route_witness :
    (getSmtpClient netFirstLocalDown ([literalRoute] ++ mixedRoute :: [failoverRoute])).client
      = none ∧
    (getSmtpClient netFirstLocalDown ([literalRoute] ++ mixedRoute :: [failoverRoute])).route
      = some mixedRoute ∧
    (getSmtpClient netFirstLocalDown ([literalRoute] ++ mixedRoute :: [failoverRoute])).dials
      = candidatesFrom netFirstLocalDown 0 [literalRoute] :=
  have h := getSmtpClient_defective_route netFirstLocalDown [literalRoute] [failoverRoute]
    mixedRoute
    (fun k r hk => by
      cases k with
      | zero =>
        simp only [List.getElem?_cons_zero, Option.some.injEq] at hk
        subst hk
        exact ⟨by decide, ⟨_, rfl⟩, ⟨_, rfl⟩⟩
      | succ k => simp at hk)
    (by decide)
    (by decide)
    (Or.inl ⟨by decide, by decide⟩)
  ⟨h.1, h.2.1, h.2.2.2.1⟩

end Tmail
